import Mathlib

/-!
Verification of the orion-ai repository core: the capability registry and
global registry manager, the platform-aware command dispatch, the output
parsers, the diagnostic configuration types and the progressive diagnostic
engine.  Every definition is a shallow embedding of the corresponding Rust
item, named after it where Lean allows.
-/

set_option autoImplicit false

namespace OrionAi

/-! ## Platform-aware command dispatch (src/func/system/platform.rs) -/

/-- Mirror of `Platform` (platform.rs). -/
inductive Platform where
  | linux
  | macOS
  | windows
  | unknown
  deriving DecidableEq, Repr

/-- Mirror of `CommandType` (platform.rs). -/
inductive CommandType where
  | uptime
  | memInfo
  | netStat
  | iostat
  | processList
  deriving DecidableEq, Repr

/-- Mirror of `get_platform_specific_command` (platform.rs, lines 33-66):
for an abstract metric kind and a platform, the concrete executable and its
default argument list. -/
def get_platform_specific_command : CommandType → Platform → String × List String
  | .uptime, .macOS => ("uptime", [])
  | .uptime, .linux => ("uptime", [])
  | .uptime, .windows => ("wmic", ["os", "get", "lastbootuptime"])
  | .uptime, .unknown => ("uptime", [])
  | .memInfo, .macOS => ("vm_stat", [])
  | .memInfo, .linux => ("free", ["-h"])
  | .memInfo, .windows => ("wmic", ["os", "get", "totalvisiblememorysize,freephysicalmemory"])
  | .memInfo, .unknown => ("vm_stat", [])
  | .netStat, .macOS => ("netstat", ["-an"])
  | .netStat, .linux => ("netstat", ["-tuln"])
  | .netStat, .windows => ("netstat", ["-an"])
  | .netStat, .unknown => ("netstat", ["-an"])
  | .iostat, .macOS => ("iostat", [])
  | .iostat, .linux => ("iostat", [])
  | .iostat, .windows =>
      ("typeperf", ["\\PhysicalDisk(*)\\Disk Read Bytes/sec",
                    "\\PhysicalDisk(*)\\Disk Write Bytes/sec"])
  | .iostat, .unknown => ("iostat", [])
  | .processList, .macOS => ("ps", [])
  | .processList, .linux => ("ps", ["aux"])
  | .processList, .windows => ("tasklist", [])
  | .processList, .unknown => ("ps", ["aux"])

/-! ## Host validation (src/func/system/net.rs) -/

/-- The whitelist literal `valid_chars` of `is_valid_host` (net.rs). -/
def valid_chars : List Char :=
  "abcdefghijklmnopqrstuvwxyzABCDEFGHIJKLMNOPQRSTUVWXYZ0123456789.-".data

/-- Byte length of a string under UTF-8, i.e. Rust `str::len`.  Hosts are
modelled as `List Char` (the sequence of Unicode scalar values of the Rust
`&str`). -/
def utf8Len (s : List Char) : Nat :=
  (s.map Char.utf8Size).sum

/-- Mirror of `is_valid_host` (net.rs, lines 135-153): non-empty, at most
253 bytes, none of the shell metacharacters, and every character drawn from
`valid_chars`. -/
def is_valid_host (host : List Char) : Bool :=
  if host.isEmpty || utf8Len host > 253 then
    false
  else if host.contains ';' || host.contains '|' || host.contains '&'
      || host.contains '>' || host.contains '<' then
    false
  else
    host.all (fun c => valid_chars.contains c)

/-! ## Diagnostic configuration types (src/types/diagnosis.rs) -/

/-- Mirror of `DiagnosticConfig` (diagnosis.rs, lines 63-85).  All seven
fields are public in the source; the numeric fields are `u32`, `u32`, `u64`,
modelled as `Nat` (wrap-around is made explicit where it matters). -/
structure DiagnosticConfig where
  check_basic_info : Bool
  check_processes : Bool
  check_io_performance : Bool
  check_network : Bool
  sampling_count : Nat
  sampling_interval : Nat
  timeout_seconds : Nat
  deriving DecidableEq, Repr

/-- Mirror of `DiagnosticConfig::default`. -/
def DiagnosticConfig.default : DiagnosticConfig :=
  { check_basic_info := true, check_processes := true,
    check_io_performance := false, check_network := false,
    sampling_count := 2, sampling_interval := 1, timeout_seconds := 15 }

/-- Mirror of `DiagnosticConfig::basic`. -/
def DiagnosticConfig.basic : DiagnosticConfig :=
  { check_basic_info := true, check_processes := false,
    check_io_performance := false, check_network := false,
    sampling_count := 1, sampling_interval := 1, timeout_seconds := 5 }

/-- Mirror of `DiagnosticConfig::standard`. -/
def DiagnosticConfig.standard : DiagnosticConfig :=
  { check_basic_info := true, check_processes := true,
    check_io_performance := false, check_network := false,
    sampling_count := 2, sampling_interval := 1, timeout_seconds := 15 }

/-- Mirror of `DiagnosticConfig::advanced`. -/
def DiagnosticConfig.advanced : DiagnosticConfig :=
  { check_basic_info := true, check_processes := true,
    check_io_performance := true, check_network := true,
    sampling_count := 3, sampling_interval := 1, timeout_seconds := 30 }

/-- Mirror of `DiagnosticConfig::is_valid` (diagnosis.rs, lines 142-149). -/
def DiagnosticConfig.is_valid (c : DiagnosticConfig) : Bool :=
  1 ≤ c.sampling_count && c.sampling_count ≤ 10
    && 1 ≤ c.sampling_interval && c.sampling_interval ≤ 5
    && 5 ≤ c.timeout_seconds && c.timeout_seconds ≤ 60

/-- Size of the `u64` value space. -/
def u64size : Nat := 2 ^ 64

/-- Mirror of `DiagnosticConfig::estimated_duration` (diagnosis.rs,
lines 152-154) under release semantics: `(sampling_count as u64 - 1)
* sampling_interval as u64 + timeout_seconds`, each operation wrapping
modulo 2^64. -/
def DiagnosticConfig.estimated_duration (c : DiagnosticConfig) : Nat :=
  ((c.sampling_count + u64size - 1) % u64size * c.sampling_interval
    + c.timeout_seconds) % u64size

/-- The same expression under debug semantics, where an underflowing
subtraction or an overflowing multiplication or addition panics (`none`). -/
def DiagnosticConfig.estimated_duration_checked (c : DiagnosticConfig) : Option Nat :=
  if c.sampling_count = 0 then none
  else if (c.sampling_count - 1) * c.sampling_interval + c.timeout_seconds < u64size then
    some ((c.sampling_count - 1) * c.sampling_interval + c.timeout_seconds)
  else none

/-- The intermediate `sampling_count as u64 - 1` of `estimated_duration`,
wrapping modulo 2^64 (release semantics). -/
def DiagnosticConfig.count_minus_one_wrapped (c : DiagnosticConfig) : Nat :=
  (c.sampling_count + u64size - 1) % u64size

/-- Mirror of `DiagnosticDepth` (diagnosis.rs, lines 14-46). -/
inductive DiagnosticDepth where
  | basic
  | standard
  | advanced
  | custom (config : DiagnosticConfig)
  deriving DecidableEq, Repr

/-- Mirror of `DiagnosticDepth::to_config` (diagnosis.rs, lines 169-176). -/
def DiagnosticDepth.to_config : DiagnosticDepth → DiagnosticConfig
  | .basic => DiagnosticConfig.basic
  | .standard => DiagnosticConfig.standard
  | .advanced => DiagnosticConfig.advanced
  | .custom config => config

/-- Rust `Ord::clamp` on unsigned integers (`v.clamp(lo, hi)` with
`lo ≤ hi`). -/
def rustClamp (v lo hi : Nat) : Nat :=
  max lo (min v hi)

/-- Mirror of `SamplingConfig` (diagnosis.rs, lines 229-238): `count : u32`,
`interval : u32`, `timeout : u64`. -/
structure SamplingConfig where
  count : Nat
  interval : Nat
  timeout : Nat
  deriving DecidableEq, Repr

/-- Mirror of `SamplingConfig::new` (diagnosis.rs, lines 252-258): each
component clamped into its documented range. -/
def SamplingConfig.new (count interval timeout : Nat) : SamplingConfig :=
  { count := rustClamp count 1 10
    interval := rustClamp interval 1 5
    timeout := rustClamp timeout 5 60 }

/-- Mirror of `SamplingConfig::is_valid` (diagnosis.rs, lines 276-283). -/
def SamplingConfig.is_valid (c : SamplingConfig) : Bool :=
  1 ≤ c.count && c.count ≤ 10
    && 1 ≤ c.interval && c.interval ≤ 5
    && 5 ≤ c.timeout && c.timeout ≤ 60

/-- Mirror of `SamplingConfig::estimated_duration` (diagnosis.rs, lines
271-273), release (wrapping) semantics as for `DiagnosticConfig`. -/
def SamplingConfig.estimated_duration (c : SamplingConfig) : Nat :=
  ((c.count + u64size - 1) % u64size * c.interval + c.timeout) % u64size

/-- Mirror of `SamplingConfig::for_diagnostic_depth` (diagnosis.rs,
lines 261-268): copies the resolved configuration fields verbatim, with no
clamping. -/
def SamplingConfig.for_diagnostic_depth (depth : DiagnosticDepth) : SamplingConfig :=
  let config := depth.to_config
  { count := config.sampling_count
    interval := config.sampling_interval
    timeout := config.timeout_seconds }

/-! ## Capability registry (src/func/registry.rs)

The registry owns two `HashMap<String, _>`s, modelled as association lists
with hash-map insert semantics (replace the binding if the key is present,
append otherwise).  `AiResult` return values that are always `Ok(())` in the
source are modelled as plain state updates; fallible operations return the
new state together with an optional error. -/

/-- Mirror of `FunctionParameter` (provider.rs): the `r#type` field is
called `ty` here. -/
structure FunctionParameter where
  name : String
  description : String
  ty : String
  required : Bool
  deriving DecidableEq, Repr

/-- Mirror of `FunctionDefinition` (provider.rs). -/
structure FunctionDefinition where
  name : String
  description : String
  parameters : List FunctionParameter
  deriving DecidableEq, Repr

/-- Model of an `Arc<dyn FunctionExecutor>` as seen by the registry: its
supported-names set (`FunctionExecutor::supported_functions`) plus an `id`
standing for the `Arc` pointer identity, so that handle sharing is
expressible.  Execution behaviour is modelled separately for the
diagnostic engine. -/
structure Executor where
  id : Nat
  supported_functions : List String
  deriving DecidableEq, Repr

/-- The registry-level error taxonomy.  The source reports these as
`orion_error` values built from distinct `format!` strings; the variants
here correspond one-to-one to those construction sites. -/
inductive RegistryError where
  | alreadyRegistered (name : String)
  | contractViolation (name : String)
  deriving DecidableEq, Repr

/-- Hash-map lookup on the association-list model. -/
def mapGet? {β : Type} (m : List (String × β)) (k : String) : Option β :=
  (m.find? (fun p => p.1 = k)).map Prod.snd

/-- Hash-map membership test on the association-list model. -/
def mapContains {β : Type} (m : List (String × β)) (k : String) : Bool :=
  m.any (fun p => p.1 = k)

/-- Hash-map insert on the association-list model: replace the first
binding of the key if present (keys are unique by construction), append
otherwise. -/
def mapInsert {β : Type} : List (String × β) → String → β → List (String × β)
  | [], k, v => [(k, v)]
  | p :: rest, k, v =>
    if p.1 = k then (k, v) :: rest else p :: mapInsert rest k v

/-- Hash-map removal on the association-list model. -/
def mapRemove {β : Type} (m : List (String × β)) (k : String) :
    List (String × β) :=
  m.filter (fun p => ¬ p.1 = k)

/-- Mirror of `FunctionRegistry` (registry.rs, lines 11-15): the
name→definition and name→executor maps. -/
structure FunctionRegistry where
  functions : List (String × FunctionDefinition)
  executors : List (String × Executor)
  deriving DecidableEq, Repr

/-- Mirror of `FunctionRegistry::new`. -/
def FunctionRegistry.new : FunctionRegistry :=
  { functions := [], executors := [] }

/-- Mirror of `FunctionRegistry::register_function` (registry.rs, lines
24-27): inserts unconditionally and always returns `Ok(())`. -/
def FunctionRegistry.register_function (r : FunctionRegistry)
    (function : FunctionDefinition) : FunctionRegistry :=
  { r with functions := mapInsert r.functions function.name function }

/-- Mirror of the base `FunctionRegistry::register_executor` (registry.rs,
lines 30-37): inserts unconditionally — no supported-names validation — and
always returns `Ok(())`. -/
def FunctionRegistry.register_executor (r : FunctionRegistry)
    (name : String) (executor : Executor) : FunctionRegistry :=
  { r with executors := mapInsert r.executors name executor }

/-- Mirror of `FunctionRegistry::get_functions`. -/
def FunctionRegistry.get_functions (r : FunctionRegistry) : List FunctionDefinition :=
  r.functions.map Prod.snd

/-- Mirror of `FunctionRegistry::get_executor`. -/
def FunctionRegistry.get_executor (r : FunctionRegistry) (name : String) :
    Option Executor :=
  mapGet? r.executors name

/-- Mirror of `FunctionRegistry::contains_function`. -/
def FunctionRegistry.contains_function (r : FunctionRegistry) (name : String) : Bool :=
  mapContains r.functions name

/-- Mirror of `FunctionRegistry::supports_function`. -/
def FunctionRegistry.supports_function (r : FunctionRegistry) (name : String) : Bool :=
  mapContains r.executors name

/-- Mirror of `FunctionRegistry::get_function_names`. -/
def FunctionRegistry.get_function_names (r : FunctionRegistry) : List String :=
  r.functions.map Prod.fst

/-- Mirror of `FunctionRegistry::register_functions_batch` (registry.rs,
lines 80-98): first every name is checked against the current map and the
first collision aborts with an error, with the state untouched; only if no
name collides are all the definitions inserted. -/
def FunctionRegistry.register_functions_batch (r : FunctionRegistry)
    (functions : List FunctionDefinition) :
    FunctionRegistry × Option RegistryError :=
  match functions.find? (fun f => mapContains r.functions f.name) with
  | some f => (r, some (.alreadyRegistered f.name))
  | none => (functions.foldl (fun acc f => acc.register_function f) r, none)

/-- Mirror of `FunctionRegistry::unregister_function` (registry.rs, lines
106-110): removes both the definition and the executor, reporting whether
either was present. -/
def FunctionRegistry.unregister_function (r : FunctionRegistry) (name : String) :
    FunctionRegistry × Bool :=
  ({ functions := mapRemove r.functions name,
     executors := mapRemove r.executors name },
   mapContains r.functions name || mapContains r.executors name)

/-- Mirror of `FunctionRegistry::clone_registry` (registry.rs, lines
121-139): rebuilds both maps entry by entry; executor handles are shared
(`Arc::clone`), which the model expresses by copying the same `Executor`
value. -/
def FunctionRegistry.clone_registry (r : FunctionRegistry) : FunctionRegistry :=
  { functions := r.functions.foldl (fun acc p => mapInsert acc p.1 p.2) [],
    executors := r.executors.foldl (fun acc p => mapInsert acc p.1 p.2) [] }

/-- Well-formedness of a registry as maintained by the hash maps: keys are
distinct, and every definition is stored under its own name (it is always
inserted keyed by `function.name`). -/
def FunctionRegistry.WF (r : FunctionRegistry) : Prop :=
  (r.functions.map Prod.fst).Nodup
    ∧ (∀ p ∈ r.functions, p.2.name = p.1)
    ∧ (r.executors.map Prod.fst).Nodup

instance (r : FunctionRegistry) : Decidable r.WF := by
  unfold FunctionRegistry.WF; infer_instance

/-! ## Global registry manager (src/func/global.rs)

The manager guards one `FunctionRegistry` behind a lock; the model works on
the guarded registry value itself, after initialization, with the
single-writer discipline making each dynamic-registration call an atomic
state transition `FunctionRegistry → FunctionRegistry × Option error`. -/

namespace GlobalFunctionRegistry

/-- Mirror of `GlobalFunctionRegistry::register_function` (global.rs, lines
315-350): rejects a name that is already registered, otherwise delegates to
the base `register_function`. -/
def register_function (r : FunctionRegistry) (function : FunctionDefinition) :
    FunctionRegistry × Option RegistryError :=
  if r.contains_function function.name then
    (r, some (.alreadyRegistered function.name))
  else
    (r.register_function function, none)

/-- Mirror of `GlobalFunctionRegistry::register_executor` (global.rs, lines
353-383): validates that the executor declares the name as supported before
touching the registry; on violation the registry is returned unchanged. -/
def register_executor (r : FunctionRegistry) (function_name : String)
    (executor : Executor) : FunctionRegistry × Option RegistryError :=
  if ¬ executor.supported_functions.contains function_name then
    (r, some (.contractViolation function_name))
  else
    (r.register_executor function_name executor, none)

/-- The definition-registration loop inside
`GlobalFunctionRegistry::register_tool_set` (global.rs, lines 412-422): the
registry is mutated in place under the write lock, and the loop returns at
the first colliding name — definitions registered before the collision
remain committed. -/
def register_defs_loop (r : FunctionRegistry) :
    List FunctionDefinition → FunctionRegistry × Option RegistryError
  | [] => (r, none)
  | f :: rest =>
    if r.contains_function f.name then (r, some (.alreadyRegistered f.name))
    else register_defs_loop (r.register_function f) rest

/-- Mirror of `GlobalFunctionRegistry::register_tool_set` (global.rs, lines
386-437): first validates that the executor supports every name in the
batch (state untouched on violation); then runs the definition loop; on its
success binds the executor to each of its supported names. -/
def register_tool_set (r : FunctionRegistry) (functions : List FunctionDefinition)
    (executor : Executor) : FunctionRegistry × Option RegistryError :=
  match functions.find? (fun f => ¬ executor.supported_functions.contains f.name) with
  | some f => (r, some (.contractViolation f.name))
  | none =>
    match register_defs_loop r functions with
    | (r2, some err) => (r2, some err)
    | (r2, none) =>
      (executor.supported_functions.foldl
        (fun acc function_name => acc.register_executor function_name executor) r2,
       none)

/-- The executor-copying loop body of `get_registry_with_tools` (global.rs,
lines 261-265): a tool name with a bound executor in the full registry has
the shared handle copied over; an unbound name is skipped. -/
def execCopyStep (full acc : FunctionRegistry) (tool_name : String) :
    FunctionRegistry :=
  match full.get_executor tool_name with
  | some executor => acc.register_executor tool_name executor
  | none => acc

/-- Mirror of `GlobalFunctionRegistry::get_registry_with_tools` (global.rs,
lines 237-268) applied to the initialized registry `r`: an empty tool list
returns the full clone; otherwise a fresh registry is populated with the
definitions whose names occur in `tools`, and for each tool name with a
bound executor the shared handle is copied over. -/
def get_registry_with_tools (r : FunctionRegistry) (tools : List String) :
    FunctionRegistry :=
  let full := r.clone_registry
  if tools.isEmpty then full
  else
    let filtered_functions := full.get_functions.filter (fun fd => tools.contains fd.name)
    let filtered1 := filtered_functions.foldl
      (fun acc fd => acc.register_function fd) FunctionRegistry.new
    tools.foldl (execCopyStep full) filtered1

end GlobalFunctionRegistry

/-! ## Diagnostic report data model (src/types/diagnosis.rs)

`f64` fields hold values read out of JSON numbers and are modelled as `Rat`;
the report's `timestamp` (`Utc::now()`) is wall-clock data outside the
model and is omitted. -/

/-- JSON values as far as the diagnostic pipeline inspects them (mirror of
`serde_json::Value`; numbers as `Rat`). -/
inductive JsonVal where
  | null
  | bool (b : Bool)
  | num (q : Rat)
  | str (s : String)
  | arr (elems : List JsonVal)
  | obj (fields : List (String × JsonVal))

/-- Mirror of `serde_json::Value::get` on an object. -/
def JsonVal.get : JsonVal → String → Option JsonVal
  | .obj fields, key => mapGet? fields key
  | _, _ => none

/-- Mirror of `serde_json::Value::as_str`. -/
def JsonVal.as_str : JsonVal → Option String
  | .str s => some s
  | _ => none

/-- Mirror of `serde_json::Value::as_f64`. -/
def JsonVal.as_f64 : JsonVal → Option Rat
  | .num q => some q
  | _ => none

/-- Mirror of `serde_json::Value::as_u64`: defined exactly on non-negative integers
below 2^64. -/
def JsonVal.as_u64 : JsonVal → Option Nat
  | .num q => if q.den = 1 && 0 ≤ q.num && q.num < (2 ^ 64 : Int) then some q.num.toNat else none
  | _ => none

/-- Mirror of `serde_json::Value::as_array`. -/
def JsonVal.as_array : JsonVal → Option (List JsonVal)
  | .arr elems => some elems
  | _ => none

/-- Mirror of `SystemInfo` with its `Default` impl values. -/
structure SystemInfo where
  uptime : String
  load_average : List Rat
  hostname : Option String
  os_info : Option String
  cpu_cores : Option Nat

/-- Mirror of `SystemInfo::default`. -/
def SystemInfo.default : SystemInfo :=
  { uptime := "", load_average := [0, 0, 0], hostname := none,
    os_info := none, cpu_cores := none }

/-- Mirror of `CpuMetrics`. -/
structure CpuMetrics where
  usage_percent : Rat
  system_percent : Rat
  user_percent : Rat
  idle_percent : Rat

/-- Mirror of `CpuMetrics::default`. -/
def CpuMetrics.default : CpuMetrics :=
  { usage_percent := 0, system_percent := 0, user_percent := 0, idle_percent := 100 }

/-- Mirror of `SwapInfo`. -/
structure SwapInfo where
  total_swap : Nat
  used_swap : Nat
  usage_percent : Rat

/-- Mirror of `MemoryMetrics`. -/
structure MemoryMetrics where
  total_memory : Nat
  used_memory : Nat
  free_memory : Nat
  usage_percent : Rat
  cached_memory : Option Nat
  swap_info : Option SwapInfo

/-- Mirror of `MemoryMetrics::default`. -/
def MemoryMetrics.default : MemoryMetrics :=
  { total_memory := 0, used_memory := 0, free_memory := 0,
    usage_percent := 0, cached_memory := none, swap_info := none }

/-- Mirror of `IoMetrics`. -/
structure IoMetrics where
  read_bytes_per_sec : Rat
  write_bytes_per_sec : Rat
  io_wait_percent : Rat
  disk_usage_percent : Rat

/-- Mirror of `IoMetrics::default`. -/
def IoMetrics.default : IoMetrics :=
  { read_bytes_per_sec := 0, write_bytes_per_sec := 0,
    io_wait_percent := 0, disk_usage_percent := 0 }

/-- Mirror of `NetworkMetrics` (`u32` counters) and its derived default. -/
structure NetworkMetrics where
  tcp_connections : Nat
  udp_connections : Nat
  listening_ports : Nat
  established_connections : Nat
  network_errors : Nat

/-- Derived `NetworkMetrics::default` (all zero). -/
def NetworkMetrics.default : NetworkMetrics :=
  { tcp_connections := 0, udp_connections := 0, listening_ports := 0,
    established_connections := 0, network_errors := 0 }

/-- Mirror of `ProcessMetrics` (`u32` counters) and its derived default. -/
structure ProcessMetrics where
  total_processes : Nat
  running_processes : Nat
  sleeping_processes : Nat
  zombie_processes : Nat
  high_cpu_processes : Nat
  high_memory_processes : Nat

/-- Derived `ProcessMetrics::default` (all zero). -/
def ProcessMetrics.default : ProcessMetrics :=
  { total_processes := 0, running_processes := 0, sleeping_processes := 0,
    zombie_processes := 0, high_cpu_processes := 0, high_memory_processes := 0 }

/-- Mirror of `PerformanceMetrics` with the derived default. -/
structure PerformanceMetrics where
  cpu_metrics : CpuMetrics
  memory_metrics : MemoryMetrics
  io_metrics : Option IoMetrics
  network_metrics : Option NetworkMetrics
  process_metrics : Option ProcessMetrics

/-- Derived `PerformanceMetrics::default`. -/
def PerformanceMetrics.default : PerformanceMetrics :=
  { cpu_metrics := CpuMetrics.default, memory_metrics := MemoryMetrics.default,
    io_metrics := none, network_metrics := none, process_metrics := none }

/-- Mirror of `SystemIssueType`. -/
inductive SystemIssueType where
  | highCpuUsage
  | highMemoryUsage
  | highIoWait
  | lowDiskSpace
  | networkIssues
  | processAnomalies
  | other (s : String)

/-- Mirror of `IssueSeverity`. -/
inductive IssueSeverity where
  | info
  | warning
  | error
  | critical

/-- Mirror of `SystemIssue`.  The `description` strings in the source
interpolate the offending numeric value (`format!`); the model keeps the
fixed text and drops the number, which no property depends on. -/
structure SystemIssue where
  issue_type : SystemIssueType
  description : String
  severity : IssueSeverity
  metrics : List (String × JsonVal)
  recommendations : List String

/-- Mirror of `Recommendation`. -/
structure Recommendation where
  title : String
  description : String
  priority : Nat
  steps : List String
  expected_outcome : String

/-- Mirror of `ExecutionSummary` (diagnosis.rs, lines 531-549);
`total_duration_seconds : f64` as `Rat`. -/
structure ExecutionSummary where
  total_duration_seconds : Rat
  executed_functions : List String
  successful_functions : Nat
  failed_functions : Nat
  diagnostic_mode : String
  status : String

/-- Mirror of `ExecutionSummary::new` (diagnosis.rs, lines 760-771). -/
def ExecutionSummary.new (mode : String) : ExecutionSummary :=
  { total_duration_seconds := 0, executed_functions := [],
    successful_functions := 0, failed_functions := 0,
    diagnostic_mode := mode, status := "completed" }

/-- Mirror of `DiagnosticDepth::description`. -/
def DiagnosticDepth.description : DiagnosticDepth → String
  | .basic => "基础诊断级别"
  | .standard => "标准诊断级别"
  | .advanced => "高级诊断级别"
  | .custom _ => "自定义诊断级别"

/-- Mirror of `DiagnosticReport` (timestamp omitted, see section note). -/
structure DiagnosticReport where
  mode : DiagnosticDepth
  system_info : SystemInfo
  performance_metrics : PerformanceMetrics
  issues_identified : List SystemIssue
  recommendations : List Recommendation
  execution_summary : ExecutionSummary

/-- Mirror of `DiagnosticReport::new` (diagnosis.rs, lines 553-564). -/
def DiagnosticReport.new (depth : DiagnosticDepth) : DiagnosticReport :=
  { mode := depth,
    system_info := SystemInfo.default,
    performance_metrics := PerformanceMetrics.default,
    issues_identified := [],
    recommendations := [],
    execution_summary := ExecutionSummary.new depth.description }

/-- Mirror of `DiagnosticReport::with_config` (diagnosis.rs, lines
567-569): wraps the given configuration, unvalidated and unclamped, in
`DiagnosticDepth::Custom`. -/
def DiagnosticReport.with_config (config : DiagnosticConfig) : DiagnosticReport :=
  DiagnosticReport.new (.custom config)

/-- Mirror of `DiagnosticReport::add_issue`. -/
def DiagnosticReport.add_issue (r : DiagnosticReport) (issue : SystemIssue) :
    DiagnosticReport :=
  { r with issues_identified := r.issues_identified ++ [issue] }

/-- Mirror of `DiagnosticReport::add_recommendation`. -/
def DiagnosticReport.add_recommendation (r : DiagnosticReport)
    (recommendation : Recommendation) : DiagnosticReport :=
  { r with recommendations := r.recommendations ++ [recommendation] }

/-! ## Progressive diagnostic engine (src/exec_unit/diagnosis.rs)

A capability call is identified by its function name and argument string
(`create_function_call` additionally attaches a fresh uuid, which nothing
in the pipeline ever reads).  The registry-plus-executor environment a run
executes against is a function from (name, arguments) to one of the four
outcomes an awaited `execute_function` under `tokio::time::timeout` can
have.  Each model function additionally returns the ghost trace of the
executor invocations it performed, so that properties about the number of
executed calls are statable; the trace has no counterpart in the state of
the source program. -/

/-- The four outcomes of one capability call: the timeout elapsed, the
registry returned `Err` (no executor bound), the executor ran and reported
a domain error (`FunctionResult.error = Some`), or it succeeded with a
result value. -/
inductive CallOutcome where
  | timeout
  | routeError (msg : String)
  | resultError (msg : String)
  | success (value : JsonVal)

/-- Whether the outcome is a success. -/
def CallOutcome.isSuccess : CallOutcome → Bool
  | .success _ => true
  | _ => false

/-- The environment a diagnostic run executes against. -/
def DiagEnv : Type := String → String → CallOutcome

/-- Mirror of `DiagnosisError` (diagnosis.rs, lines 40-59). -/
inductive DiagnosisError where
  | functionExecutionFailed (msg : String)
  | timeout (elapsed limit : Nat)
  | parameterParseError (msg : String)
  | systemCommandFailed (msg : String)
  | invalidConfig (msg : String)
  | unknown (msg : String)
  deriving DecidableEq, Repr

/-- One entry of the ghost call trace: which call was issued and whether it
succeeded. -/
structure CallEvent where
  name : String
  args : String
  ok : Bool
  deriving DecidableEq, Repr

/-- The ghost trace entry for one invocation. -/
def callEvent (env : DiagEnv) (name args : String) : CallEvent :=
  { name := name, args := args, ok := (env name args).isSuccess }

/-- The Rust argument literals, written with `\x7b`/`\x7d` for `{`/`}`. -/
def emptyArgs : String := "\x7b\x7d"

/-- Argument literal of the first `sys-proc-top` call. -/
def cpuTopArgs : String := "\x7b\"sort_by\": \"cpu\", \"limit\": 5\x7d"

/-- Argument literal of the second `sys-proc-top` call. -/
def memTopArgs : String := "\x7b\"sort_by\": \"memory\", \"limit\": 5\x7d"

/-- Argument literal of the `sys-netstat` call. -/
def netstatArgs : String := "\x7b\"show_tcp\": true, \"show_udp\": true\x7d"

/-- The `format!`-built argument literal of the `sys-iostat` call. -/
def iostatArgs (count interval : Nat) : String :=
  "\x7b\"count\": " ++ toString count ++ ", \"interval\": " ++ toString interval ++ "\x7d"

namespace ProgressiveDiagnosis

/-- Mirror of `ProgressiveDiagnosis::execute_function_with_timeout`
(diagnosis.rs, lines 316-341): a timeout is its own error; a registry
error and an executor-reported `FunctionResult.error` both become
`FunctionExecutionFailed`; otherwise the result payload is returned. -/
def execute_function_with_timeout (env : DiagEnv) (name args : String)
    (timeout_seconds : Nat) : Except DiagnosisError JsonVal :=
  match env name args with
  | .timeout => .error (.timeout timeout_seconds timeout_seconds)
  | .routeError msg => .error (.functionExecutionFailed msg)
  | .resultError msg => .error (.functionExecutionFailed msg)
  | .success value => .ok value

/-- Mirror of `ProgressiveDiagnosis::update_system_info` (diagnosis.rs,
lines 344-382). -/
def update_system_info (report : DiagnosticReport)
    (uptime_result meminfo_result : JsonVal) : DiagnosticReport :=
  let report :=
    match uptime_result.get ("uptime_output") with
    | some uptime_output =>
      { report with system_info.uptime := uptime_output.as_str.getD ("") }
    | none => report
  let report :=
    match (uptime_result.get ("load_data")).bind (fun ld => ld.get ("load_average"))
        |>.bind JsonVal.as_array with
    | some array =>
      { report with system_info.load_average := array.filterMap JsonVal.as_f64 }
    | none => report
  let report :=
    match meminfo_result.get ("memory_data") with
    | some memory_data =>
      let report :=
        match (memory_data.get ("total")).bind JsonVal.as_u64 with
        | some total =>
          { report with performance_metrics.memory_metrics.total_memory := total }
        | none => report
      let report :=
        match (memory_data.get ("used")).bind JsonVal.as_u64 with
        | some used =>
          { report with performance_metrics.memory_metrics.used_memory := used }
        | none => report
      match (memory_data.get ("usage_percent")).bind JsonVal.as_f64 with
      | some usage_percent =>
        { report with performance_metrics.memory_metrics.usage_percent := usage_percent }
      | none => report
    | none => report
  match (uptime_result.get ("cpu_data")).bind (fun cd => cd.get ("usage_percent"))
      |>.bind JsonVal.as_f64 with
  | some usage_percent =>
    { report with performance_metrics.cpu_metrics.usage_percent := usage_percent }
  | none => report

/-- Mirror of `ProgressiveDiagnosis::update_process_metrics` (diagnosis.rs,
lines 385-404): the parsed inputs are inspected but the stored metrics are
the defaults. -/
def update_process_metrics (report : DiagnosticReport)
    (_cpu_top_result _mem_top_result _proc_stats_result : JsonVal) :
    DiagnosticReport :=
  { report with performance_metrics.process_metrics := some ProcessMetrics.default }

/-- Mirror of `ProgressiveDiagnosis::update_io_metrics` (diagnosis.rs,
lines 407-416): stores the default I/O metrics. -/
def update_io_metrics (report : DiagnosticReport) (_iostat_result : JsonVal) :
    DiagnosticReport :=
  { report with performance_metrics.io_metrics := some IoMetrics.default }

/-- Mirror of `ProgressiveDiagnosis::update_network_metrics` (diagnosis.rs,
lines 419-455); the `as u32` casts truncate modulo 2^32. -/
def update_network_metrics (report : DiagnosticReport)
    (netstat_result : JsonVal) : DiagnosticReport :=
  let network_metrics := NetworkMetrics.default
  let network_metrics :=
    match netstat_result.get ("connection_stats") with
    | some connection_stats =>
      let network_metrics :=
        match (connection_stats.get ("tcp_connections")).bind JsonVal.as_u64 with
        | some tcp_connections =>
          { network_metrics with tcp_connections := tcp_connections % 2 ^ 32 }
        | none => network_metrics
      let network_metrics :=
        match (connection_stats.get ("udp_connections")).bind JsonVal.as_u64 with
        | some udp_connections =>
          { network_metrics with udp_connections := udp_connections % 2 ^ 32 }
        | none => network_metrics
      let network_metrics :=
        match (connection_stats.get ("listening_ports")).bind JsonVal.as_u64 with
        | some listening_ports =>
          { network_metrics with listening_ports := listening_ports % 2 ^ 32 }
        | none => network_metrics
      match (connection_stats.get ("established_connections")).bind JsonVal.as_u64 with
      | some established_connections =>
        { network_metrics with established_connections := established_connections % 2 ^ 32 }
      | none => network_metrics
    | none => network_metrics
  { report with performance_metrics.network_metrics := some network_metrics }

/-- Mirror of `ProgressiveDiagnosis::execute_basic_diagnosis` (diagnosis.rs,
lines 140-180): calls `sys-uptime` and `sys-meminfo`, each under the
configured timeout and each propagating its failure with `?`; on success
records the two names and adds 2 to the success counter. -/
def execute_basic_diagnosis (env : DiagEnv) (config : DiagnosticConfig)
    (report : DiagnosticReport) :
    Except DiagnosisError DiagnosticReport × List CallEvent :=
  let ev1 := callEvent env ("sys-uptime") emptyArgs
  match execute_function_with_timeout env ("sys-uptime") emptyArgs config.timeout_seconds with
  | .error e => (.error e, [ev1])
  | .ok uptime_result =>
    let ev2 := callEvent env ("sys-meminfo") emptyArgs
    match execute_function_with_timeout env ("sys-meminfo") emptyArgs config.timeout_seconds with
    | .error e => (.error e, [ev1, ev2])
    | .ok meminfo_result =>
      let report := update_system_info report uptime_result meminfo_result
      let report :=
        { report with
            execution_summary.executed_functions :=
              report.execution_summary.executed_functions ++ ["sys-uptime", "sys-meminfo"],
            execution_summary.successful_functions :=
              report.execution_summary.successful_functions + 2 }
      (.ok report, [ev1, ev2])

/-- Mirror of `ProgressiveDiagnosis::execute_process_analysis`
(diagnosis.rs, lines 183-235): executes `sys-proc-top` twice (CPU sort and
memory sort) and `sys-proc-stats` once, each propagating failure with `?`;
on success records the two distinct names — not three entries — and adds 2
to the success counter. -/
def execute_process_analysis (env : DiagEnv) (config : DiagnosticConfig)
    (report : DiagnosticReport) :
    Except DiagnosisError DiagnosticReport × List CallEvent :=
  let ev1 := callEvent env ("sys-proc-top") cpuTopArgs
  match execute_function_with_timeout env ("sys-proc-top") cpuTopArgs config.timeout_seconds with
  | .error e => (.error e, [ev1])
  | .ok cpu_top_result =>
    let ev2 := callEvent env ("sys-proc-top") memTopArgs
    match execute_function_with_timeout env ("sys-proc-top") memTopArgs config.timeout_seconds with
    | .error e => (.error e, [ev1, ev2])
    | .ok mem_top_result =>
      let ev3 := callEvent env ("sys-proc-stats") emptyArgs
      match execute_function_with_timeout env ("sys-proc-stats") emptyArgs config.timeout_seconds with
      | .error e => (.error e, [ev1, ev2, ev3])
      | .ok proc_stats_result =>
        let report :=
          update_process_metrics report cpu_top_result mem_top_result proc_stats_result
        let report :=
          { report with
              execution_summary.executed_functions :=
                report.execution_summary.executed_functions ++ ["sys-proc-top", "sys-proc-stats"],
              execution_summary.successful_functions :=
                report.execution_summary.successful_functions + 2 }
        (.ok report, [ev1, ev2, ev3])

/-- Mirror of `ProgressiveDiagnosis::execute_io_analysis` (diagnosis.rs,
lines 238-270): one `sys-iostat` call under twice the sampling timeout;
on success records the name and adds 1. -/
def execute_io_analysis (env : DiagEnv) (sampling_config : SamplingConfig)
    (report : DiagnosticReport) :
    Except DiagnosisError DiagnosticReport × List CallEvent :=
  let args := iostatArgs sampling_config.count sampling_config.interval
  let ev1 := callEvent env ("sys-iostat") args
  match execute_function_with_timeout env ("sys-iostat") args (sampling_config.timeout * 2) with
  | .error e => (.error e, [ev1])
  | .ok iostat_result =>
    let report := update_io_metrics report iostat_result
    let report :=
      { report with
          execution_summary.executed_functions :=
            report.execution_summary.executed_functions ++ ["sys-iostat"],
          execution_summary.successful_functions :=
            report.execution_summary.successful_functions + 1 }
    (.ok report, [ev1])

/-- Mirror of `ProgressiveDiagnosis::execute_network_analysis`
(diagnosis.rs, lines 273-300): one `sys-netstat` call under the configured
timeout; on success records the name and adds 1. -/
def execute_network_analysis (env : DiagEnv) (config : DiagnosticConfig)
    (report : DiagnosticReport) :
    Except DiagnosisError DiagnosticReport × List CallEvent :=
  let ev1 := callEvent env ("sys-netstat") netstatArgs
  match execute_function_with_timeout env ("sys-netstat") netstatArgs config.timeout_seconds with
  | .error e => (.error e, [ev1])
  | .ok netstat_result =>
    let report := update_network_metrics report netstat_result
    let report :=
      { report with
          execution_summary.executed_functions :=
            report.execution_summary.executed_functions ++ ["sys-netstat"],
          execution_summary.successful_functions :=
            report.execution_summary.successful_functions + 1 }
    (.ok report, [ev1])

/-- Mirror of `ProgressiveDiagnosis::update_execution_summary`
(diagnosis.rs, lines 458-465): stores the wall-clock duration (a model
parameter), sets the status to `completed`, and computes the failure count
as `executed_functions.len() - successful_functions`. -/
def update_execution_summary (report : DiagnosticReport) (elapsed_seconds : Rat) :
    DiagnosticReport :=
  { report with
      execution_summary.total_duration_seconds := elapsed_seconds,
      execution_summary.status := "completed",
      execution_summary.failed_functions :=
        report.execution_summary.executed_functions.length
          - report.execution_summary.successful_functions }

/-- Mirror of `ProgressiveDiagnosis::analyze_and_recommend` (diagnosis.rs,
lines 468-535): the CPU rule fires above 80 percent, the memory rule above
85 percent; each adds one issue and one recommendation. -/
def analyze_and_recommend (report : DiagnosticReport) : DiagnosticReport :=
  let report :=
    if report.performance_metrics.cpu_metrics.usage_percent > 80 then
      let report := report.add_issue
        { issue_type := .highCpuUsage,
          description := "CPU使用率过高",
          severity := .warning,
          metrics := [("cpu_usage_percent",
            .num report.performance_metrics.cpu_metrics.usage_percent)],
          recommendations := ["检查高CPU进程", "考虑终止不必要的进程"] }
      report.add_recommendation
        { title := "优化CPU使用",
          description := "建议检查和优化高CPU使用进程",
          priority := 3,
          steps := ["使用top命令检查CPU使用", "识别和终止高CPU进程"],
          expected_outcome := "CPU使用率降低到正常范围" }
    else report
  if report.performance_metrics.memory_metrics.usage_percent > 85 then
    let report := report.add_issue
      { issue_type := .highMemoryUsage,
        description := "内存使用率过高",
        severity := .warning,
        metrics := [("memory_usage_percent",
          .num report.performance_metrics.memory_metrics.usage_percent)],
        recommendations := ["检查高内存使用进程", "考虑清理缓存"] }
    report.add_recommendation
      { title := "优化内存使用",
        description := "建议检查和优化内存使用情况",
        priority := 3,
        steps := ["使用free命令检查内存使用", "清理不必要的缓存"],
        expected_outcome := "内存使用率降低到正常范围" }
  else report

/-- Mirror of `ProgressiveDiagnosis::new` (diagnosis.rs, lines 78-90): the
sampling configuration is the clamped copy of the diagnostic
configuration's sampling fields. -/
def samplingOf (config : DiagnosticConfig) : SamplingConfig :=
  SamplingConfig.new config.sampling_count config.sampling_interval config.timeout_seconds

/-- Mirror of `ProgressiveDiagnosis::execute_progressive_diagnosis`
(diagnosis.rs, lines 99-137): a fresh report for
`Custom(self.config)`, then the four phases in order, each gated by its
toggle and each propagating its error with `?`, then the summary update
and the rule evaluation.  `elapsed_seconds` stands for the wall-clock time
measured by the source. -/
def execute_progressive_diagnosis (env : DiagEnv) (config : DiagnosticConfig)
    (elapsed_seconds : Rat) :
    Except DiagnosisError DiagnosticReport × List CallEvent :=
  let report := DiagnosticReport.new (.custom config)
  let step1 :=
    if config.check_basic_info then execute_basic_diagnosis env config report
    else (.ok report, [])
  match step1 with
  | (.error e, tr) => (.error e, tr)
  | (.ok report, tr1) =>
    let step2 :=
      if config.check_processes then execute_process_analysis env config report
      else (.ok report, [])
    match step2 with
    | (.error e, tr) => (.error e, tr1 ++ tr)
    | (.ok report, tr2) =>
      let step3 :=
        if config.check_io_performance then
          execute_io_analysis env (samplingOf config) report
        else (.ok report, [])
      match step3 with
      | (.error e, tr) => (.error e, tr1 ++ tr2 ++ tr)
      | (.ok report, tr3) =>
        let step4 :=
          if config.check_network then execute_network_analysis env config report
          else (.ok report, [])
        match step4 with
        | (.error e, tr) => (.error e, tr1 ++ tr2 ++ tr3 ++ tr)
        | (.ok report, tr4) =>
          let report := update_execution_summary report elapsed_seconds
          let report := analyze_and_recommend report
          (.ok report, tr1 ++ tr2 ++ tr3 ++ tr4)

end ProgressiveDiagnosis

/-! ## Output parsers (src/exec_unit/parsers)

String primitives mirror the Rust `str` methods they are named after.
Floating-point tokens are parsed against the Rust grammar and their values
kept exactly (as rationals); no verified property depends on rounding. -/

/-- Split a character list at every newline, keeping the (possibly empty)
final segment. -/
def splitOnNewline : List Char → List (List Char)
  | [] => [[]]
  | c :: rest =>
    if c = '\n' then [] :: splitOnNewline rest
    else
      match splitOnNewline rest with
      | [] => [[c]]
      | l :: ls => (c :: l) :: ls

/-- Strip one trailing carriage return. -/
def dropCR (l : List Char) : List Char :=
  match l.reverse with
  | '\r' :: rest => rest.reverse
  | _ => l

/-- Rust `str::lines`: lines are terminated by `\n` or `\r\n`, and the
terminator of the final line is optional (an unterminated final segment is
kept verbatim, carriage return included). -/
def rustLines (s : String) : List String :=
  match (splitOnNewline s.data).reverse with
  | [] => []
  | last :: rest =>
    let init := rest.reverse.map (fun l => String.mk (dropCR l))
    if last.isEmpty then init else init ++ [String.mk last]

/-- Substring search, on character lists. -/
def substrAux : List Char → List Char → Bool
  | pat, [] => pat.isEmpty
  | pat, c :: rest => pat.isPrefixOf (c :: rest) || substrAux pat rest

/-- Rust `str::contains` for a string pattern. -/
def containsSubstr (s pat : String) : Bool :=
  substrAux pat.data s.data

/-- Rust `str::split_whitespace`. -/
def split_whitespace (s : String) : List String :=
  (s.split Char.isWhitespace).filter (fun t => ¬ t.isEmpty)

/-- Rust `str::trim_matches` with a single char pattern. -/
def trim_matches (s : String) (c : Char) : String :=
  let l := s.data.dropWhile (fun x => x = c)
  String.mk ((l.reverse.dropWhile (fun x => x = c)).reverse)

/-- Rust `u32::from_str`: optional leading plus sign, then ASCII digits,
rejecting the empty string and out-of-range values. -/
def parseU32? (s : String) : Option Nat :=
  let t := if s.startsWith ("+") then s.drop 1 else s
  if t.isEmpty || ¬ t.data.all Char.isDigit then none
  else
    let v := t.data.foldl (fun acc c => acc * 10 + (c.toNat - 48)) 0
    if v < 2 ^ 32 then some v else none

/-- Rust `u64::from_str`, as `parseU32?`. -/
def parseU64? (s : String) : Option Nat :=
  let t := if s.startsWith ("+") then s.drop 1 else s
  if t.isEmpty || ¬ t.data.all Char.isDigit then none
  else
    let v := t.data.foldl (fun acc c => acc * 10 + (c.toNat - 48)) 0
    if v < 2 ^ 64 then some v else none

/-- A parsed Rust floating-point literal, value kept exactly. -/
inductive RustFloatLit where
  | finite (q : Rat)
  | infPos
  | infNeg
  | nan
  deriving DecidableEq, Repr

/-- Numeric value of a digit list. -/
def digitsVal (l : List Char) : Nat :=
  l.foldl (fun acc c => acc * 10 + (c.toNat - 48)) 0

/-- Split a character list at the first exponent marker. -/
def breakOnE : List Char → List Char × Option (List Char)
  | [] => ([], none)
  | c :: rest =>
    if c = 'e' || c = 'E' then ([], some rest)
    else
      let (a, b) := breakOnE rest
      (c :: a, b)

/-- The mantissa part of the Rust float grammar:
`digits [. [digits]] | . digits`, at least one digit overall. -/
def parseMantissa? (t : List Char) : Option Rat :=
  let (intPart, rest) := t.span Char.isDigit
  match rest with
  | [] => if intPart.isEmpty then none else some ((digitsVal intPart : Nat) : Rat)
  | '.' :: fracPart =>
    if ¬ fracPart.all Char.isDigit then none
    else if intPart.isEmpty && fracPart.isEmpty then none
    else some (((digitsVal intPart : Nat) : Rat)
      + ((digitsVal fracPart : Nat) : Rat) / ((10 : Rat) ^ fracPart.length))
  | _ => none

/-- The exponent part of the Rust float grammar: optional sign and a
non-empty digit string. -/
def parseExponent? (t : List Char) : Option Int :=
  let (neg, u) :=
    match t with
    | '+' :: u => (false, u)
    | '-' :: u => (true, u)
    | u => (false, u)
  if u.isEmpty || ¬ u.all Char.isDigit then none
  else some (if neg then -(digitsVal u : Int) else (digitsVal u : Int))

/-- Rust `f32::from_str`/`f64::from_str` grammar: optional sign, then
`inf`, `infinity` or `nan` (case-insensitive), or a decimal mantissa with
an optional exponent.  The numeric value is kept exactly. -/
def parseRustFloat? (s : String) : Option RustFloatLit :=
  let (neg, t) :=
    match s.data with
    | '+' :: t => (false, t)
    | '-' :: t => (true, t)
    | t => (false, t)
  let low := String.mk (t.map Char.toLower)
  if low = "inf" || low = "infinity" then
    some (if neg then .infNeg else .infPos)
  else if low = "nan" then
    some .nan
  else
    let (mant, expo) := breakOnE t
    match parseMantissa? mant with
    | none => none
    | some m =>
      match expo with
      | none => some (.finite (if neg then -m else m))
      | some e =>
        match parseExponent? e with
        | none => none
        | some k =>
          let v := m * (10 : Rat) ^ k
          some (.finite (if neg then -v else v))

/-- Rust `as u64` on a float value: saturating, with NaN mapped to 0. -/
def rustFloatToU64Sat : RustFloatLit → Nat
  | .finite q => if q ≤ 0 then 0 else min (2 ^ 64 - 1) q.floor.toNat
  | .infPos => 2 ^ 64 - 1
  | .infNeg => 0
  | .nan => 0

/-- Mirror of `ParseError` (parsers/mod.rs, lines 13-27).  The int/float
variants carry `std` error payloads in the source; the payloads are
dropped here. -/
inductive ParseError where
  | emptyInput
  | invalidFormat (msg : String)
  | missingField (msg : String)
  | parseIntError
  | parseFloatError
  | other (msg : String)
  deriving DecidableEq, Repr

/-- Result of a parse: success, a `ParseError`, or a Rust panic (reachable
in `parse_procfs_data` through an out-of-bounds index). -/
inductive ParseResult (α : Type) where
  | ok (value : α)
  | err (e : ParseError)
  | panicked (msg : String)

/-- The error of a parse result, if any. -/
def ParseResult.errOf {α : Type} : ParseResult α → Option ParseError
  | .err e => some e
  | _ => none

/-- Mirror of `ProcessInfo` (parsers/process.rs); `cpu_usage : f32` as an
exact parsed literal. -/
structure ProcessInfo where
  pid : Nat
  name : String
  status : String
  cpu_usage : RustFloatLit
  memory_usage : Nat
  parent_pid : Option Nat
  start_time : Option String
  command_line : Option String
  user : Option String
  extra : List (String × String)

/-- Mirror of `ProcessList`. -/
structure ProcessList where
  processes : List ProcessInfo
  total_count : Nat
  system_info : List (String × String)

/-- Mirror of `NetworkConnection` (parsers/network.rs). -/
structure NetworkConnection where
  protocol : String
  local_address : String
  remote_address : String
  state : String
  pid : Option Nat
  process_name : Option String
  extra : List (String × JsonVal)

/-- Mirror of `NetworkConnectionList`. -/
structure NetworkConnectionList where
  connections : List NetworkConnection
  total_count : Nat
  protocol_counts : List (String × Nat)
  state_counts : List (String × Nat)
  system_info : List (String × JsonVal)

/-- Mirror of `NetworkInterface`. -/
structure NetworkInterface where
  name : String
  status : String
  mtu : Nat
  rx_bytes : Nat
  rx_packets : Nat
  rx_errors : Nat
  tx_bytes : Nat
  tx_packets : Nat
  tx_errors : Nat
  ip_address : Option String
  mac_address : Option String
  extra : List (String × JsonVal)

/-- Mirror of `NetworkInterfaceList`. -/
structure NetworkInterfaceList where
  interfaces : List NetworkInterface
  total_count : Nat
  total_rx_bytes : Nat
  total_tx_bytes : Nat
  system_info : List (String × JsonVal)

/-- Mirror of `RouteEntry`. -/
structure RouteEntry where
  destination : String
  gateway : String
  netmask : String
  interface : String
  flags : String
  metric : Option Nat
  extra : List (String × JsonVal)

/-- Mirror of `RoutingTable`. -/
structure RoutingTable where
  routes : List RouteEntry
  total_count : Nat
  default_gateway : Option String
  system_info : List (String × JsonVal)

/-- The `Box<dyn ParsedData>` payloads the two parsers produce. -/
inductive ParsedData where
  | processList (l : ProcessList)
  | connectionList (l : NetworkConnectionList)
  | interfaceList (l : NetworkInterfaceList)
  | routingTable (t : RoutingTable)

/-- Prepend a parsed record to a loop result that may have failed. -/
def consOk {α : Type} (a : α) : ParseResult (List α) → ParseResult (List α)
  | .ok l => .ok (a :: l)
  | .err e => .err e
  | .panicked m => .panicked m

namespace ProcessParser

/-- The per-line loop of `parse_ps_output`: blank lines and lines with
fewer than four fields are skipped; an unparsable PID aborts with
`ParseIntError`. -/
def ps_lines_loop : List String → ParseResult (List ProcessInfo)
  | [] => .ok []
  | line :: rest =>
    if line.trim.isEmpty then ps_lines_loop rest
    else
      let parts := split_whitespace line
      if parts.length < 4 then ps_lines_loop rest
      else
        match parseU32? (parts.getD 0 ("")) with
        | none => .err .parseIntError
        | some pid =>
          let name := String.intercalate (" ") (parts.drop 3)
          consOk
            { pid := pid, name := name, status := "R",
              cpu_usage := .finite 0, memory_usage := 0,
              parent_pid := none, start_time := none,
              command_line := some name, user := none, extra := [] }
            (ps_lines_loop rest)

/-- Mirror of `ProcessParser::parse_ps_output` (parsers/process.rs, lines
100-153): an input with no lines is *InvalidFormat* (not EmptyInput); the
first line is skipped as the header. -/
def parse_ps_output (output : String) : ParseResult ParsedData :=
  let lines := rustLines output
  if lines.isEmpty then .err (.invalidFormat ("Empty ps output"))
  else
    match ps_lines_loop (lines.drop 1) with
    | .ok processes =>
      .ok (.processList
        { processes := processes, total_count := processes.length, system_info := [] })
    | .err e => .err e
    | .panicked m => .panicked m

/-- The per-line loop of `parse_top_output`, carrying the
`process_section` flag. -/
def top_lines_loop : Bool → List String → ParseResult (List ProcessInfo)
  | _, [] => .ok []
  | sec, line :: rest =>
    if line.startsWith ("PID") then top_lines_loop true rest
    else if sec && ¬ line.trim.isEmpty then
      let parts := split_whitespace line
      if parts.length ≥ 12 then
        match parseU32? (parts.getD 0 ("")) with
        | none => .err .parseIntError
        | some pid =>
          match parseRustFloat? (parts.getD 8 ("")) with
          | none => .err .parseFloatError
          | some cpu_usage =>
            match parseRustFloat? (parts.getD 9 ("")) with
            | none => .err .parseFloatError
            | some memory_usage =>
              let command := String.intercalate (" ") (parts.drop 11)
              consOk
                { pid := pid, name := command, status := "R",
                  cpu_usage := cpu_usage,
                  memory_usage := rustFloatToU64Sat memory_usage,
                  parent_pid := none, start_time := none,
                  command_line := some command,
                  user := some (parts.getD 1 ("")), extra := [] }
                (top_lines_loop sec rest)
      else top_lines_loop sec rest
    else top_lines_loop sec rest

/-- Mirror of `ProcessParser::parse_top_output` (parsers/process.rs, lines
157-218): fewer than two lines is *InvalidFormat*. -/
def parse_top_output (output : String) : ParseResult ParsedData :=
  let lines := rustLines output
  if lines.length < 2 then .err (.invalidFormat ("Incomplete top output"))
  else
    match top_lines_loop false lines with
    | .ok processes =>
      .ok (.processList
        { processes := processes, total_count := processes.length, system_info := [] })
    | .err e => .err e
    | .panicked m => .panicked m

/-- The per-line loop of `parse_procfs_data`; a line of exactly two fields
reaches the unguarded `parts[2]` index in the source and panics. -/
def procfs_lines_loop : List String → ParseResult (List ProcessInfo)
  | [] => .ok []
  | line :: rest =>
    if line.trim.isEmpty then procfs_lines_loop rest
    else
      let parts := split_whitespace line
      if parts.length ≥ 2 then
        match parseU32? (parts.getD 0 ("")) with
        | none => .err .parseIntError
        | some pid =>
          match parts.get? 2 with
          | none => .panicked ("index out of bounds")
          | some status =>
            let name := trim_matches (trim_matches (parts.getD 1 ("")) '(') ')'
            consOk
              { pid := pid, name := name, status := status,
                cpu_usage := .finite 0, memory_usage := 0,
                parent_pid := none, start_time := none,
                command_line := none, user := none, extra := [] }
              (procfs_lines_loop rest)
      else procfs_lines_loop rest

/-- Mirror of `ProcessParser::parse_procfs_data` (parsers/process.rs, lines
222-272): an input with no lines is *InvalidFormat*. -/
def parse_procfs_data (data : String) : ParseResult ParsedData :=
  let lines := rustLines data
  if lines.isEmpty then .err (.invalidFormat ("Empty procfs data"))
  else
    match procfs_lines_loop lines with
    | .ok processes =>
      .ok (.processList
        { processes := processes, total_count := processes.length, system_info := [] })
    | .err e => .err e
    | .panicked m => .panicked m

/-- Mirror of the `ParserTrait` impl `ProcessParser::parse`
(parsers/process.rs, lines 276-292): format sniffing, falling through to
*InvalidFormat* — an entirely empty input reaches the fall-through, so it
is InvalidFormat, not EmptyInput. -/
def parse (input : String) : ParseResult ParsedData :=
  if containsSubstr input ("PID") && containsSubstr input ("TTY")
      && containsSubstr input ("TIME") then
    parse_ps_output input
  else if containsSubstr input ("PID") && containsSubstr input ("USER")
      && containsSubstr input ("%CPU") then
    parse_top_output input
  else if (match input.data with | c :: _ => c.isDigit | [] => false) then
    parse_procfs_data input
  else
    .err (.invalidFormat ("Unable to determine process data format"))

/-- Mirror of `ProcessParser::can_parse` (parsers/process.rs, lines
298-304). -/
def can_parse (input : String) : Bool :=
  containsSubstr input ("PID")
    || (match input.data with | c :: _ => c.isDigit | [] => false)
    || ((rustLines input).any (fun line => (split_whitespace line).length > 3)
        && (containsSubstr input ("USER") || containsSubstr input ("TTY")
            || containsSubstr input ("CMD") || containsSubstr input ("COMMAND")))

end ProcessParser

/-- Increment of a `HashMap<String, usize>` counter
(`*map.entry(k).or_insert(0) += 1`). -/
def countIncr (m : List (String × Nat)) (k : String) : List (String × Nat) :=
  match mapGet? m k with
  | some n => mapInsert m k (n + 1)
  | none => mapInsert m k 1

namespace NetworkParser

/-- One line of the `parse_netstat_output` loop, updating the connection
list and the per-protocol and per-state tallies. -/
def netstat_step
    (acc : List NetworkConnection × List (String × Nat) × List (String × Nat))
    (line : String) :
    List NetworkConnection × List (String × Nat) × List (String × Nat) :=
  if line.trim.isEmpty then acc
  else
    let parts := split_whitespace line
    if parts.length ≥ 5 then
      let protocol := parts.getD 0 ("")
      let local_address := parts.getD 3 ("")
      let remote_address := parts.getD 4 ("")
      let state := if parts.length > 5 then parts.getD 5 ("") else ("UNKNOWN")
      (acc.1 ++
        [{ protocol := protocol, local_address := local_address,
           remote_address := remote_address, state := state,
           pid := none, process_name := none, extra := [] }],
       countIncr acc.2.1 protocol, countIncr acc.2.2 state)
    else acc

/-- Mirror of `NetworkParser::parse_netstat_output` (parsers/network.rs,
lines 141-201): an input with no lines is the distinct *EmptyInput* error;
otherwise everything after the header line (the first line containing
`Proto` or `Local Address`, default position 0) is tokenized. -/
def parse_netstat_output (data : String) : ParseResult ParsedData :=
  let lines := rustLines data
  if lines.isEmpty then .err .emptyInput
  else
    let start_idx := (lines.findIdx? (fun line =>
      containsSubstr line ("Proto") || containsSubstr line ("Local Address"))).getD 0
    let (connections, protocol_counts, state_counts) :=
      (lines.drop (start_idx + 1)).foldl netstat_step ([], [], [])
    .ok (.connectionList
      { connections := connections, total_count := connections.length,
        protocol_counts := protocol_counts, state_counts := state_counts,
        system_info := [] })

/-- A fresh interface record as `parse_ifconfig_output` creates it from a
name line. -/
def newInterface (name : String) : NetworkInterface :=
  { name := name, status := "UP", mtu := 1500,
    rx_bytes := 0, rx_packets := 0, rx_errors := 0,
    tx_bytes := 0, tx_packets := 0, tx_errors := 0,
    ip_address := none, mac_address := none, extra := [] }

/-- The `RX packets`/`TX packets` statistics update: the source looks for
the literal tokens `packets:` and `bytes:` and parses the following
token as `u64`, ignoring failures. -/
def statsUpdate (parts : List String) (packets0 bytes0 : Nat) : Nat × Nat :=
  let packets :=
    match (parts.findIdx? (fun p => p = "packets:")).bind
        (fun idx => (parts.get? (idx + 1)).bind parseU64?) with
    | some v => v
    | none => packets0
  let bytes :=
    match (parts.findIdx? (fun p => p = "bytes:")).bind
        (fun idx => (parts.get? (idx + 1)).bind parseU64?) with
    | some v => v
    | none => bytes0
  (packets, bytes)

/-- Accumulator of the `parse_ifconfig_output` loop: finished interfaces,
the interface under construction, and the running byte totals. -/
structure IfconfigAcc where
  interfaces : List NetworkInterface
  current : Option NetworkInterface
  total_rx : Nat
  total_tx : Nat

/-- Flush the interface under construction into the accumulator. -/
def flushCurrent (acc : IfconfigAcc) : IfconfigAcc :=
  match acc.current with
  | some interface =>
    { interfaces := acc.interfaces ++ [interface], current := none,
      total_rx := acc.total_rx + interface.rx_bytes,
      total_tx := acc.total_tx + interface.tx_bytes }
  | none => acc

/-- One line of the `parse_ifconfig_output` loop. -/
def ifconfig_step (acc : IfconfigAcc) (line : String) : IfconfigAcc :=
  let trimmed := line.trim
  if trimmed.isEmpty then flushCurrent acc
  else if trimmed.endsWith (":") && ¬ trimmed.startsWith (" ") then
    let acc := flushCurrent acc
    { acc with current := some (newInterface (trim_matches trimmed ':')) }
  else
    match acc.current with
    | none => acc
    | some interface =>
      if trimmed.startsWith ("inet ") then
        let parts := split_whitespace trimmed
        if parts.length > 1 then
          { acc with current := some { interface with ip_address := some (parts.getD 1 ("")) } }
        else acc
      else if trimmed.startsWith ("ether ") then
        let parts := split_whitespace trimmed
        if parts.length > 1 then
          { acc with current := some { interface with mac_address := some (parts.getD 1 ("")) } }
        else acc
      else if containsSubstr trimmed ("RX packets") then
        let parts := split_whitespace trimmed
        let (packets, bytes) := statsUpdate parts interface.rx_packets interface.rx_bytes
        { acc with current := some { interface with rx_packets := packets, rx_bytes := bytes } }
      else if containsSubstr trimmed ("TX packets") then
        let parts := split_whitespace trimmed
        let (packets, bytes) := statsUpdate parts interface.tx_packets interface.tx_bytes
        { acc with current := some { interface with tx_packets := packets, tx_bytes := bytes } }
      else acc

/-- Mirror of `NetworkParser::parse_ifconfig_output` (parsers/network.rs,
lines 204-313): an input with no lines is *EmptyInput*. -/
def parse_ifconfig_output (data : String) : ParseResult ParsedData :=
  let lines := rustLines data
  if lines.isEmpty then .err .emptyInput
  else
    let acc := flushCurrent (lines.foldl ifconfig_step
      { interfaces := [], current := none, total_rx := 0, total_tx := 0 })
    .ok (.interfaceList
      { interfaces := acc.interfaces, total_count := acc.interfaces.length,
        total_rx_bytes := acc.total_rx, total_tx_bytes := acc.total_tx,
        system_info := [] })

/-- One line of the `parse_route_output` loop, also tracking the default
gateway. -/
def route_step (acc : List RouteEntry × Option String) (line : String) :
    List RouteEntry × Option String :=
  if line.trim.isEmpty then acc
  else
    let parts := split_whitespace line
    if parts.length ≥ 4 then
      let destination := parts.getD 0 ("")
      let gateway := parts.getD 1 ("")
      let flags := parts.getD 2 ("")
      let interface := parts.getD 3 ("")
      let default_gateway := if destination = "default" then some gateway else acc.2
      (acc.1 ++
        [{ destination := destination, gateway := gateway, netmask := "0.0.0.0",
           interface := interface, flags := flags, metric := none, extra := [] }],
       default_gateway)
    else acc

/-- Mirror of `NetworkParser::parse_route_output` (parsers/network.rs,
lines 316-372): an input with no lines is *EmptyInput*. -/
def parse_route_output (data : String) : ParseResult ParsedData :=
  let lines := rustLines data
  if lines.isEmpty then .err .emptyInput
  else
    let start_idx := (lines.findIdx? (fun line =>
      containsSubstr line ("Destination") || containsSubstr line ("Target"))).getD 0
    let (routes, default_gateway) :=
      (lines.drop (start_idx + 1)).foldl route_step ([], none)
    .ok (.routingTable
      { routes := routes, total_count := routes.length,
        default_gateway := default_gateway, system_info := [] })

/-- Mirror of the `ParserTrait` impl `NetworkParser::parse`
(parsers/network.rs, lines 375-392): format sniffing, falling through to
*InvalidFormat* — an entirely empty input reaches the fall-through. -/
def parse (input : String) : ParseResult ParsedData :=
  if containsSubstr input ("Proto") && containsSubstr input ("Local Address") then
    parse_netstat_output input
  else if containsSubstr input ("flags=") || containsSubstr input ("mtu") then
    parse_ifconfig_output input
  else if containsSubstr input ("Destination") && containsSubstr input ("Gateway") then
    parse_route_output input
  else
    .err (.invalidFormat ("Unable to determine network data format"))

/-- Mirror of `NetworkParser::can_parse` (parsers/network.rs, lines
398-409). -/
def can_parse (input : String) : Bool :=
  containsSubstr input ("Proto")
    || containsSubstr input ("Local Address")
    || containsSubstr input ("flags=")
    || containsSubstr input ("mtu")
    || containsSubstr input ("Destination")
    || containsSubstr input ("Gateway")
    || ((rustLines input).any (fun line => (split_whitespace line).length > 3)
        && (containsSubstr input ("tcp") || containsSubstr input ("udp")
            || containsSubstr input ("inet")))

end NetworkParser

/-- The two `ParserTrait` objects of this module, for the registry model. -/
inductive RegisteredParser where
  | process
  | network
  deriving DecidableEq, Repr

/-- Trait dispatch of `can_parse`. -/
def RegisteredParser.can_parse : RegisteredParser → String → Bool
  | .process, input => ProcessParser.can_parse input
  | .network, input => NetworkParser.can_parse input

/-- Trait dispatch of `parse`. -/
def RegisteredParser.parse : RegisteredParser → String → ParseResult ParsedData
  | .process, input => ProcessParser.parse input
  | .network, input => NetworkParser.parse input

/-- Mirror of `ParserRegistry::find_parser` (parsers/mod.rs, lines
95-100): first-match dispatch by capability predicate. -/
def ParserRegistry.findParser (parsers : List RegisteredParser) (input : String) :
    Option RegisteredParser :=
  parsers.find? (fun p => p.can_parse input)

/-- Mirror of `ParserRegistry::parse` (parsers/mod.rs, lines 103-111):
if no registered parser accepts the input, *InvalidFormat* is returned. -/
def ParserRegistry.parse (parsers : List RegisteredParser) (input : String) :
    ParseResult ParsedData :=
  match ParserRegistry.findParser parsers input with
  | some p => p.parse input
  | none => .err (.invalidFormat ("没有找到适合的解析器"))

/-! ## Verified properties -/

/-- A diagnostic configuration with a zero sampling count: constructible
because every field of `DiagnosticConfig` is public and no constructor
clamps it. -/
def zeroCountConfig : DiagnosticConfig :=
  { check_basic_info := true, check_processes := false,
    check_io_performance := false, check_network := false,
    sampling_count := 0, sampling_interval := 1, timeout_seconds := 5 }

/-- Claim C8 (counterexample): the command selected for the Unknown
platform does not equal the Linux one for the memory-info metric kind —
Unknown falls back to `vm_stat`, the macOS flavour, while Linux uses
`free -h`. -/
theorem C8_unknown_fallback_counterexample :
    get_platform_specific_command .memInfo .unknown
      ≠ get_platform_specific_command .memInfo .linux := by decide

/-- Claim C8 (amended): the Unknown platform matches Linux for uptime,
I/O stats and the process list, but for memory info it falls back to the
macOS command (`vm_stat` with no arguments) and for network stats it uses
`netstat -an` (the macOS/Windows flavour) instead of Linux's
`netstat -tuln`. -/
theorem C8_unknown_fallback :
    get_platform_specific_command .uptime .unknown
        = get_platform_specific_command .uptime .linux
    ∧ get_platform_specific_command .iostat .unknown
        = get_platform_specific_command .iostat .linux
    ∧ get_platform_specific_command .processList .unknown
        = get_platform_specific_command .processList .linux
    ∧ get_platform_specific_command .memInfo .unknown
        = get_platform_specific_command .memInfo .macOS
    ∧ get_platform_specific_command .memInfo .unknown = ("vm_stat", [])
    ∧ get_platform_specific_command .memInfo .linux = ("free", ["-h"])
    ∧ get_platform_specific_command .netStat .unknown = ("netstat", ["-an"])
    ∧ get_platform_specific_command .netStat .linux = ("netstat", ["-tuln"]) := by
  decide

/-- Claim C3 (counterexample): an out-of-range `DiagnosticConfig` can
exist — the fields are public and never clamped — and it flows unchanged
into `DiagnosticDepth::Custom` and `DiagnosticReport::with_config`. -/
theorem C3_unclamped_config_counterexample :
    (DiagnosticDepth.custom zeroCountConfig).to_config = zeroCountConfig
    ∧ (DiagnosticReport.with_config zeroCountConfig).mode
        = DiagnosticDepth.custom zeroCountConfig
    ∧ zeroCountConfig.is_valid = false :=
  ⟨rfl, rfl, by decide⟩

/-- Claim C3 (amended): `SamplingConfig::new` clamps every input into
count∈[1,10], interval∈[1,5], timeout∈[5,60], so a sampling configuration
built through it always satisfies `is_valid`; the preset
`DiagnosticConfig` constructors are in range as well, but `DiagnosticConfig`
itself is never clamped. -/
theorem C3_sampling_config_clamped :
    (∀ count interval timeout : Nat,
        (SamplingConfig.new count interval timeout).is_valid = true)
    ∧ DiagnosticConfig.default.is_valid = true
    ∧ DiagnosticConfig.basic.is_valid = true
    ∧ DiagnosticConfig.standard.is_valid = true
    ∧ DiagnosticConfig.advanced.is_valid = true := by
  refine ⟨?_, by decide, by decide, by decide, by decide⟩
  intro count interval timeout
  simp only [SamplingConfig.new, SamplingConfig.is_valid, rustClamp,
    Bool.and_eq_true, decide_eq_true_eq]
  omega

/-- Claim C10: `estimated_duration` computes
`(count - 1) * interval + timeout` in u64 arithmetic; for a zero sampling
count the subtraction underflows — `none` (a panic) under checked/debug
semantics, and the wrapped difference `2^64 - 1` under release semantics —
while for `count ≥ 1` (and no overflow) it computes the intended value. -/
theorem C10_estimated_duration_underflow (c : DiagnosticConfig) :
    (c.sampling_count = 0 →
      c.estimated_duration_checked = none
      ∧ c.count_minus_one_wrapped = u64size - 1)
    ∧ (1 ≤ c.sampling_count →
        (c.sampling_count - 1) * c.sampling_interval + c.timeout_seconds < u64size →
        c.sampling_count < u64size →
        c.estimated_duration_checked
            = some ((c.sampling_count - 1) * c.sampling_interval + c.timeout_seconds)
          ∧ c.estimated_duration
            = (c.sampling_count - 1) * c.sampling_interval + c.timeout_seconds) := by
  constructor
  · intro h0
    refine ⟨by simp [DiagnosticConfig.estimated_duration_checked, h0], ?_⟩
    rw [DiagnosticConfig.count_minus_one_wrapped, h0]
    decide
  · intro h1 h2 h3
    have hw : (c.sampling_count + u64size - 1) % u64size = c.sampling_count - 1 := by
      have hsplit : c.sampling_count + u64size - 1 = (c.sampling_count - 1) + u64size := by
        omega
      rw [hsplit, Nat.add_mod_right]
      exact Nat.mod_eq_of_lt (by omega)
    constructor
    · rw [DiagnosticConfig.estimated_duration_checked, if_neg (by omega), if_pos h2]
    · rw [DiagnosticConfig.estimated_duration, hw, Nat.mod_eq_of_lt h2]

/-- Claim C10 (witness): the zero-count configuration instantiates the
underflow case. -/
theorem C10_witness :
    zeroCountConfig.sampling_count = 0
    ∧ zeroCountConfig.estimated_duration_checked = none
    ∧ zeroCountConfig.count_minus_one_wrapped = u64size - 1 :=
  ⟨rfl, ((C10_estimated_duration_underflow zeroCountConfig).1 rfl).1,
    ((C10_estimated_duration_underflow zeroCountConfig).1 rfl).2⟩

/-- Claim C2 (counterexample): the base registry's `register_executor`
performs no supported-names validation: binding an executor to the name
`b`, which it does not support, succeeds and changes the executor map. -/
theorem C2_base_register_executor_counterexample :
    (Executor.mk 0 ["a"]).supported_functions.contains ("b") = false
    ∧ (FunctionRegistry.new.register_executor ("b") (Executor.mk 0 ["a"])).get_executor ("b")
        = some (Executor.mk 0 ["a"]) := by decide

/-- Claim C2 (amended): contract validation lives in the Global Registry
Manager layer, not in the base registry: for every executor not declaring
the name, `GlobalFunctionRegistry::register_executor` fails with a
ContractViolation and returns the registry unchanged, while the base
`FunctionRegistry::register_executor` inserts unconditionally. -/
theorem C2_global_register_executor_contract (r : FunctionRegistry)
    (name : String) (e : Executor)
    (h : e.supported_functions.contains name = false) :
    GlobalFunctionRegistry.register_executor r name e
      = (r, some (.contractViolation name)) := by
  simp only [GlobalFunctionRegistry.register_executor, h, Bool.false_eq_true,
    not_false_eq_true, if_pos]

/-- Claim C2 (witness). -/
theorem C2_witness :
    (Executor.mk 1 ["a"]).supported_functions.contains ("b") = false
    ∧ GlobalFunctionRegistry.register_executor FunctionRegistry.new ("b") (Executor.mk 1 ["a"])
        = (FunctionRegistry.new, some (.contractViolation ("b"))) :=
  ⟨by decide,
    C2_global_register_executor_contract FunctionRegistry.new ("b") (Executor.mk 1 ["a"])
      (by decide)⟩

/-- Claim C6 (counterexample): `ProcessParser::parse` on an entirely empty
input returns InvalidFormat (the format sniffer falls through), not the
EmptyInput error. -/
theorem C6_empty_input_counterexample :
    (ProcessParser.parse ("")).errOf
        = some (ParseError.invalidFormat ("Unable to determine process data format"))
    ∧ (ProcessParser.parse ("")).errOf ≠ some ParseError.emptyInput := by decide

/-- Claim C6 (amended): empty input is not uniformly classified as
EmptyInput.  Both trait-level `parse` entry points and the parser
registry return InvalidFormat on empty input, and so does
`ProcessParser::parse_ps_output`; only the network parser's inner
netstat/ifconfig/route parsers return the distinct EmptyInput error. -/
theorem C6_empty_input_classification :
    (ProcessParser.parse ("")).errOf
        = some (ParseError.invalidFormat ("Unable to determine process data format"))
    ∧ (NetworkParser.parse ("")).errOf
        = some (ParseError.invalidFormat ("Unable to determine network data format"))
    ∧ (ProcessParser.parse_ps_output ("")).errOf
        = some (ParseError.invalidFormat ("Empty ps output"))
    ∧ (NetworkParser.parse_netstat_output ("")).errOf = some ParseError.emptyInput
    ∧ (NetworkParser.parse_ifconfig_output ("")).errOf = some ParseError.emptyInput
    ∧ (NetworkParser.parse_route_output ("")).errOf = some ParseError.emptyInput
    ∧ (ParserRegistry.parse [.process, .network] ("")).errOf
        = some (ParseError.invalidFormat ("没有找到适合的解析器"))
    ∧ ParseError.emptyInput ≠ ParseError.invalidFormat ("Empty ps output") := by
  decide

/-- Every character of the host whitelist is a one-byte (ASCII)
character. -/
theorem valid_chars_utf8Size : ∀ c ∈ valid_chars, c.utf8Size = 1 := by decide

/-- A string has at least as many bytes as characters. -/
theorem length_le_utf8Len (l : List Char) : l.length ≤ utf8Len l := by
  induction l with
  | nil => simp [utf8Len]
  | cons c rest ih =>
    have hc : 0 < c.utf8Size := Char.utf8Size_pos c
    simp only [utf8Len, List.map_cons, List.sum_cons, List.length_cons] at *
    omega

/-- On whitelisted hosts, byte length and character count coincide. -/
theorem utf8Len_of_valid (l : List Char) (h : ∀ c ∈ l, c ∈ valid_chars) :
    utf8Len l = l.length := by
  induction l with
  | nil => simp [utf8Len]
  | cons c rest ih =>
    have hc : c.utf8Size = 1 := valid_chars_utf8Size c (h c (by simp))
    have hrest := ih (fun x hx => h x (by simp [hx]))
    simp only [utf8Len, List.map_cons, List.sum_cons, List.length_cons] at *
    omega

/-- Claim C9: the host validator accepts exactly the non-empty strings of
at most 253 characters drawn from `[A-Za-z0-9.-]`; in particular it
rejects every string containing one of the shell metacharacters, rejects
every 300-character string together with the concrete examples, and
accepts the three concrete well-formed hosts. -/
theorem C9_is_valid_host_spec :
    (∀ host : List Char, is_valid_host host = true ↔
        (host ≠ [] ∧ host.length ≤ 253 ∧ ∀ c ∈ host, c ∈ valid_chars))
    ∧ (∀ (host : List Char) (c : Char), c ∈ host →
        c ∈ ([';', '|', '&', '<', '>'] : List Char) → is_valid_host host = false)
    ∧ (∀ host : List Char, host.length = 300 → is_valid_host host = false)
    ∧ is_valid_host (("a;b").data) = false
    ∧ is_valid_host (("a|b").data) = false
    ∧ is_valid_host (("example.com").data) = true
    ∧ is_valid_host (("192.168.1.1").data) = true
    ∧ is_valid_host (("sub.host-name.io").data) = true := by
  have main : ∀ host : List Char, is_valid_host host = true ↔
      (host ≠ [] ∧ host.length ≤ 253 ∧ ∀ c ∈ host, c ∈ valid_chars) := by
    intro host
    constructor
    · intro h
      rw [is_valid_host] at h
      split_ifs at h with h1 h2
      have h1' : host.isEmpty = false ∧ utf8Len host ≤ 253 := by
        constructor
        · cases he : host.isEmpty
          · rfl
          · exact absurd (by simp [he]) h1
        · by_contra hgt
          exact h1 (by simp; omega)
      have hmem : ∀ c ∈ host, c ∈ valid_chars := by
        intro c hc
        have := (List.all_eq_true.mp h) c hc
        exact List.elem_iff.mp (by simpa using this)
      refine ⟨?_, ?_, hmem⟩
      · intro hnil
        rw [hnil] at h1'
        simp at h1'
      · exact le_trans (length_le_utf8Len host) h1'.2
    · rintro ⟨hne, hlen, hval⟩
      have hbytes : utf8Len host = host.length := utf8Len_of_valid host hval
      have hnotmeta : ∀ b : Char, b ∈ ([';', '|', '&', '>', '<'] : List Char) →
          b ∉ host := by
        intro b hb hbm
        exact absurd (hval b hbm) (by fin_cases hb <;> decide)
      rw [is_valid_host]
      rw [if_neg, if_neg]
      · exact List.all_eq_true.mpr fun c hc => by
          simpa using List.elem_iff.mpr (hval c hc)
      · simp
        exact ⟨⟨⟨⟨hnotmeta ';' (by decide), hnotmeta '|' (by decide)⟩,
          hnotmeta '&' (by decide)⟩, hnotmeta '>' (by decide)⟩,
          hnotmeta '<' (by decide)⟩
      · have : host.isEmpty = false := by
          cases host
          · exact absurd rfl hne
          · rfl
        simp [this, hbytes]
        omega
  refine ⟨main, ?_, ?_, by decide, by decide, by decide, by decide, by decide⟩
  · intro host c hc hm
    cases hv : is_valid_host host
    · rfl
    · have := ((main host).mp hv).2.2 c hc
      exact absurd this (by fin_cases hm <;> decide)
  · intro host h300
    cases hv : is_valid_host host
    · rfl
    · have := ((main host).mp hv).2.1
      omega

/-- Claim C9 (witness). -/
theorem C9_witness :
    (';' ∈ (("a;b").data) ∧ ';' ∈ ([';', '|', '&', '<', '>'] : List Char))
    ∧ is_valid_host (("a;b").data) = false :=
  ⟨⟨by decide, by decide⟩,
    C9_is_valid_host_spec.2.1 (("a;b").data) ';' (by decide) (by decide)⟩

/-- A fresh definition named `a`. -/
def defA : FunctionDefinition := { name := "a", description := "", parameters := [] }

/-- A definition named `b`, colliding with the pre-registered one. -/
def defB : FunctionDefinition := { name := "b", description := "", parameters := [] }

/-- An executor supporting both batch names. -/
def abExecutor : Executor := { id := 0, supported_functions := ["a", "b"] }

/-- A registry that already contains `b`. -/
def regWithB : FunctionRegistry := FunctionRegistry.new.register_function defB

/-- Characterization of the `register_tool_set` definition loop when it
fails: the batch splits as `pre ++ f :: post` where `f` is the first name
colliding with the evolving registry state, the returned state has exactly
`pre` committed on top of the initial state, and the error names `f`. -/
theorem register_defs_loop_err :
    ∀ (fs : List FunctionDefinition) (r : FunctionRegistry),
    (GlobalFunctionRegistry.register_defs_loop r fs).2 ≠ none →
    ∃ pre f post, fs = pre ++ f :: post
      ∧ GlobalFunctionRegistry.register_defs_loop r fs
          = (pre.foldl (fun acc g => acc.register_function g) r,
             some (.alreadyRegistered f.name))
      ∧ (pre.foldl (fun acc g => acc.register_function g) r).contains_function f.name
          = true := by
  intro fs
  induction fs with
  | nil =>
    intro r h
    simp [GlobalFunctionRegistry.register_defs_loop] at h
  | cons f rest ih =>
    intro r h
    cases hc : r.contains_function f.name with
    | true =>
      refine ⟨[], f, rest, rfl, ?_, ?_⟩
      · simp [GlobalFunctionRegistry.register_defs_loop, hc]
      · simpa using hc
    | false =>
      have hstep : GlobalFunctionRegistry.register_defs_loop r (f :: rest)
          = GlobalFunctionRegistry.register_defs_loop (r.register_function f) rest := by
        simp [GlobalFunctionRegistry.register_defs_loop, hc]
      rw [hstep] at h
      obtain ⟨pre, g, post, hsplit, heq, hcont⟩ := ih (r.register_function f) h
      refine ⟨f :: pre, g, post, by simp [hsplit], ?_, ?_⟩
      · rw [hstep]
        simpa using heq
      · simpa using hcont

/-- Claim C4 (counterexample): `register_tool_set` of the batch
`[a, b]` against a registry already containing `b` returns an error, yet
`a` — registered before the collision was detected — remains committed:
the registry is not what it was before the call. -/
theorem C4_tool_set_counterexample :
    (GlobalFunctionRegistry.register_tool_set regWithB [defA, defB] abExecutor).2
        = some (.alreadyRegistered ("b"))
    ∧ (GlobalFunctionRegistry.register_tool_set regWithB [defA, defB]
        abExecutor).1.contains_function ("a") = true
    ∧ regWithB.contains_function ("a") = false := by decide

/-- Claim C4 (amended): the base registry's `register_functions_batch` is
atomic — on any collision it returns an error with the registry unchanged,
and it succeeds exactly when no batch name is already present — but the
Global Manager's `register_tool_set` is not: when it fails on a collision
it has already committed every definition preceding the first colliding
name. -/
theorem C4_batch_atomicity (r : FunctionRegistry) :
    (∀ fs : List FunctionDefinition,
        ((r.register_functions_batch fs).2 ≠ none →
          (r.register_functions_batch fs).1 = r)
        ∧ ((r.register_functions_batch fs).2 = none ↔
            ∀ f ∈ fs, r.contains_function f.name = false))
    ∧ (∀ (fs : List FunctionDefinition) (e : Executor),
        (∀ f ∈ fs, e.supported_functions.contains f.name = true) →
        (GlobalFunctionRegistry.register_tool_set r fs e).2 ≠ none →
        ∃ pre f post, fs = pre ++ f :: post
          ∧ GlobalFunctionRegistry.register_tool_set r fs e
              = (pre.foldl (fun acc g => acc.register_function g) r,
                 some (.alreadyRegistered f.name))
          ∧ (pre.foldl (fun acc g => acc.register_function g) r).contains_function
              f.name = true) := by
  constructor
  · intro fs
    unfold FunctionRegistry.register_functions_batch
    cases hfind : fs.find? (fun f => mapContains r.functions f.name) with
    | some f =>
      constructor
      · intro _
        rfl
      · constructor
        · intro h
          exact absurd h (by simp)
        · intro hall
          have hmem := List.mem_of_find?_eq_some hfind
          have hprop := List.find?_some hfind
          have := hall f hmem
          rw [FunctionRegistry.contains_function] at this
          rw [this] at hprop
          exact absurd hprop (by simp)
    | none =>
      constructor
      · intro h
        exact absurd rfl h
      · constructor
        · intro _ f hf
          have := List.find?_eq_none.mp hfind f hf
          rw [FunctionRegistry.contains_function]
          cases hc : mapContains r.functions f.name with
          | true => exact absurd (by simpa using hc) this
          | false => rfl
        · intro _
          rfl
  · intro fs e hsup herr
    have hvalid : fs.find? (fun f => ¬ e.supported_functions.contains f.name) = none := by
      apply List.find?_eq_none.mpr
      intro f hf
      have hm : f.name ∈ e.supported_functions := List.elem_iff.mp (hsup f hf)
      simp [hm]
    rw [GlobalFunctionRegistry.register_tool_set] at herr ⊢
    rw [hvalid] at herr ⊢
    cases hloop : GlobalFunctionRegistry.register_defs_loop r fs with
    | mk r2 res =>
      cases res with
      | some err =>
        have hne : (GlobalFunctionRegistry.register_defs_loop r fs).2 ≠ none := by
          rw [hloop]
          simp
        obtain ⟨pre, f, post, hsplit, heq, hcont⟩ := register_defs_loop_err fs r hne
        refine ⟨pre, f, post, hsplit, ?_, hcont⟩
        rw [hloop] at heq
        simp only [hloop]
        rw [Prod.mk.injEq] at heq
        simp [heq.1, heq.2]
      | none =>
        rw [hloop] at herr
        simp at herr

/-- Claim C4 (witness): the atomic base-batch branch instantiated at the
colliding singleton batch. -/
theorem C4_witness :
    (regWithB.register_functions_batch [defB]).2 ≠ none
    ∧ (regWithB.register_functions_batch [defB]).1 = regWithB :=
  ⟨by decide, ((C4_batch_atomicity regWithB).1 [defB]).1 (by decide)⟩

/-- Symmetry of decidable string equality tests. -/
theorem decide_eq_comm (a b : String) : decide (a = b) = decide (b = a) := by
  rcases Decidable.em (a = b) with hh | hh
  · rw [decide_eq_true hh, decide_eq_true hh.symm]
  · rw [decide_eq_false hh, decide_eq_false (Ne.symm hh)]

/-- Membership after a hash-map insert: the inserted key plus the old
keys. -/
theorem mapContains_insert {β : Type} (m : List (String × β)) (k n : String) (v : β) :
    mapContains (mapInsert m k v) n = (mapContains m n || decide (n = k)) := by
  induction m with
  | nil =>
    simp only [mapInsert, mapContains, List.any_cons, List.any_nil, Bool.or_false,
      Bool.false_or]
    exact decide_eq_comm k n
  | cons p rest ih =>
    by_cases hp : p.1 = k
    · simp only [mapInsert, hp, if_true, mapContains, List.any_cons,
        decide_eq_comm n k]
      cases hd : decide (k = n) <;>
        simp only [Bool.true_or, Bool.false_or, Bool.or_false, Bool.or_true]
    · simp only [mapInsert, if_neg hp, mapContains, List.any_cons]
      have ih' : (List.any (mapInsert rest k v) fun p => decide (p.1 = n))
          = ((List.any rest fun p => decide (p.1 = n)) || decide (n = k)) := ih
      rw [ih', Bool.or_assoc]

/-- Lookup of the freshly inserted key. -/
theorem mapGet?_insert_self {β : Type} (m : List (String × β)) (k : String) (v : β) :
    mapGet? (mapInsert m k v) k = some v := by
  induction m with
  | nil => simp [mapInsert, mapGet?, List.find?]
  | cons p rest ih =>
    by_cases hp : p.1 = k
    · simp [mapInsert, if_pos hp, mapGet?, List.find?]
    · simp only [mapInsert, if_neg hp, mapGet?, List.find?, decide_eq_false hp]
      exact ih

/-- Lookup of a different key is unchanged by an insert. -/
theorem mapGet?_insert_ne {β : Type} (m : List (String × β)) (k n : String) (v : β)
    (h : n ≠ k) : mapGet? (mapInsert m k v) n = mapGet? m n := by
  induction m with
  | nil =>
    simp [mapInsert, mapGet?, List.find?, decide_eq_false (Ne.symm h)]
  | cons p rest ih =>
    by_cases hp : p.1 = k
    · have hpn : p.1 ≠ n := fun hpn => h ((hp.symm.trans hpn).symm)
      simp [mapInsert, if_pos hp, mapGet?, List.find?, decide_eq_false (Ne.symm h),
        decide_eq_false hpn]
    · simp only [mapInsert, if_neg hp, mapGet?, List.find?]
      cases hpn : decide (p.1 = n) with
      | true => rfl
      | false => exact ih

/-- An insert of an absent key appends the binding. -/
theorem mapInsert_of_not_contains {β : Type} (m : List (String × β)) (k : String)
    (v : β) (h : mapContains m k = false) : mapInsert m k v = m ++ [(k, v)] := by
  induction m with
  | nil => rfl
  | cons p rest ih =>
    simp only [mapContains, List.any_cons, Bool.or_eq_false_iff] at h
    simp only [mapInsert, if_neg (by simpa using h.1), List.cons_append, List.cons.injEq,
      true_and]
    exact ih h.2

/-- Membership in a concatenation of maps. -/
theorem mapContains_append {β : Type} (a b : List (String × β)) (k : String) :
    mapContains (a ++ b) k = (mapContains a k || mapContains b k) := by
  simp [mapContains, List.any_append]

/-- Folding hash-map inserts of fresh, pairwise distinct keys appends the
entries in order. -/
theorem foldl_mapInsert_append {β : Type} :
    ∀ (l acc : List (String × β)),
    (l.map Prod.fst).Nodup →
    (∀ k ∈ l.map Prod.fst, mapContains acc k = false) →
    l.foldl (fun acc p => mapInsert acc p.1 p.2) acc = acc ++ l := by
  intro l
  induction l with
  | nil => intro acc _ _; simp
  | cons p rest ih =>
    intro acc hnd hdisj
    simp only [List.foldl_cons]
    rw [mapInsert_of_not_contains acc p.1 p.2 (hdisj p.1 (by simp))]
    rw [ih (acc ++ [p]) (by simpa using hnd.of_cons)]
    · simp
    · intro k hk
      have h1 := hdisj k (by simp; right; simpa using hk)
      have h2 : p.1 ≠ k := by
        simp only [List.map_cons, List.nodup_cons] at hnd
        intro he
        exact hnd.1 (he ▸ hk)
      rw [mapContains_append, h1]
      simp [mapContains, h2]

/-- Under well-formedness, `clone_registry` reproduces the registry
exactly. -/
theorem clone_registry_eq (r : FunctionRegistry) (h : r.WF) :
    r.clone_registry = r := by
  obtain ⟨h1, h2, h3⟩ := h
  obtain ⟨fns, exs⟩ := r
  simp only [FunctionRegistry.clone_registry, FunctionRegistry.mk.injEq]
  constructor
  · rw [foldl_mapInsert_append fns [] (by simpa using h1) (fun k _ => rfl)]
    simp
  · rw [foldl_mapInsert_append exs [] (by simpa using h3) (fun k _ => rfl)]
    simp

/-- Lemma: `register_function` adds exactly its name to the schema map. -/
theorem register_function_contains (r : FunctionRegistry) (f : FunctionDefinition)
    (n : String) :
    (r.register_function f).contains_function n
      = (r.contains_function n || decide (n = f.name)) :=
  mapContains_insert r.functions f.name n f

/-- Lemma: `register_executor` leaves the schema map untouched. -/
theorem register_executor_functions (r : FunctionRegistry) (k : String) (e : Executor) :
    (r.register_executor k e).functions = r.functions := rfl

/-- Lookup of a just-bound executor. -/
theorem register_executor_get_self (r : FunctionRegistry) (k : String) (e : Executor) :
    (r.register_executor k e).get_executor k = some e :=
  mapGet?_insert_self r.executors k e

/-- Binding one name leaves the other executors untouched. -/
theorem register_executor_get_ne (r : FunctionRegistry) (k n : String) (e : Executor)
    (h : n ≠ k) : (r.register_executor k e).get_executor n = r.get_executor n :=
  mapGet?_insert_ne r.executors k n e h

/-- Names present after folding `register_function` over a list of
definitions. -/
theorem foldl_register_function_contains :
    ∀ (fs : List FunctionDefinition) (acc : FunctionRegistry) (n : String),
    (fs.foldl (fun acc f => acc.register_function f) acc).contains_function n
      = (acc.contains_function n || fs.any (fun f => decide (f.name = n))) := by
  intro fs
  induction fs with
  | nil => intro acc n; simp
  | cons f rest ih =>
    intro acc n
    simp only [List.foldl_cons, List.any_cons]
    rw [ih, register_function_contains, decide_eq_comm n f.name, Bool.or_assoc]

/-- Folding `register_function` never touches the executor map. -/
theorem foldl_register_function_executors :
    ∀ (fs : List FunctionDefinition) (acc : FunctionRegistry),
    (fs.foldl (fun acc f => acc.register_function f) acc).executors = acc.executors := by
  intro fs
  induction fs with
  | nil => intro _; rfl
  | cons f rest ih => intro acc; simpa using ih (acc.register_function f)

/-- Behaviour of the executor-copying fold of `get_registry_with_tools`:
it never changes the schema map, copies the full registry's executor for
every listed name, and leaves unlisted names untouched. -/
theorem execCopy_fold_spec (full : FunctionRegistry) :
    ∀ (tools : List String) (acc : FunctionRegistry),
    (∀ n, acc.get_executor n = none ∨ acc.get_executor n = full.get_executor n) →
    ((tools.foldl (GlobalFunctionRegistry.execCopyStep full) acc).functions
        = acc.functions
     ∧ (∀ n ∈ tools,
          (tools.foldl (GlobalFunctionRegistry.execCopyStep full) acc).get_executor n
            = full.get_executor n)
     ∧ (∀ n, n ∉ tools →
          (tools.foldl (GlobalFunctionRegistry.execCopyStep full) acc).get_executor n
            = acc.get_executor n)) := by
  intro tools
  induction tools with
  | nil =>
    intro acc _
    exact ⟨rfl, fun n hn => absurd hn (List.not_mem_nil n), fun n _ => rfl⟩
  | cons t rest ih =>
    intro acc hinv
    have hstep_fun : (GlobalFunctionRegistry.execCopyStep full acc t).functions
        = acc.functions := by
      unfold GlobalFunctionRegistry.execCopyStep
      cases full.get_executor t <;> rfl
    have hstep_ne : ∀ n, n ≠ t →
        (GlobalFunctionRegistry.execCopyStep full acc t).get_executor n
          = acc.get_executor n := by
      intro n hn
      unfold GlobalFunctionRegistry.execCopyStep
      cases full.get_executor t with
      | none => rfl
      | some e => exact register_executor_get_ne acc t n e hn
    have hstep_self : (GlobalFunctionRegistry.execCopyStep full acc t).get_executor t
        = full.get_executor t := by
      unfold GlobalFunctionRegistry.execCopyStep
      cases hfe : full.get_executor t with
      | none =>
        rcases hinv t with h | h
        · rw [h]
        · rw [h, hfe]
      | some e => exact register_executor_get_self acc t e
    have hinv' : ∀ n,
        (GlobalFunctionRegistry.execCopyStep full acc t).get_executor n = none
        ∨ (GlobalFunctionRegistry.execCopyStep full acc t).get_executor n
            = full.get_executor n := by
      intro n
      by_cases hn : n = t
      · subst hn
        exact Or.inr hstep_self
      · rw [hstep_ne n hn]
        exact hinv n
    obtain ⟨ihf, ihmem, ihnot⟩ := ih (GlobalFunctionRegistry.execCopyStep full acc t) hinv'
    simp only [List.foldl_cons]
    refine ⟨by rw [ihf, hstep_fun], ?_, ?_⟩
    · intro n hn
      rcases List.mem_cons.mp hn with h | h
      · subst h
        by_cases hr : n ∈ rest
        · exact ihmem n hr
        · rw [ihnot n hr, hstep_self]
      · exact ihmem n h
    · intro n hn
      have hn1 : n ≠ t := fun he => hn (by rw [he]; exact List.mem_cons_self t rest)
      have hn2 : n ∉ rest := fun hr => hn (List.mem_cons_of_mem t hr)
      rw [ihnot n hn2, hstep_ne n hn1]

/-- Claim C7: filtering behaviour of `get_registry_with_tools` over an
initialized (well-formed) registry — an empty filter returns the full
function-name set, a non-empty filter returns exactly the names present
both in the filter and in the registry, and each filtered name keeps the
shared executor handle of the full registry. -/
theorem C7_get_registry_with_tools (r : FunctionRegistry) (tools : List String)
    (hwf : r.WF) :
    (tools = [] → ∀ n,
        (GlobalFunctionRegistry.get_registry_with_tools r tools).contains_function n
          = r.contains_function n)
    ∧ (tools ≠ [] →
        (∀ n,
          (GlobalFunctionRegistry.get_registry_with_tools r tools).contains_function n
            = (tools.contains n && r.contains_function n))
        ∧ (∀ n ∈ tools,
            (GlobalFunctionRegistry.get_registry_with_tools r tools).get_executor n
              = r.get_executor n)) := by
  have hclone : r.clone_registry = r := clone_registry_eq r hwf
  constructor
  · intro htools n
    subst htools
    rw [GlobalFunctionRegistry.get_registry_with_tools]
    simp [hclone]
  · intro htools
    have hne : tools.isEmpty = false := by
      cases tools with
      | nil => exact absurd rfl htools
      | cons a b => rfl
    have hgr : GlobalFunctionRegistry.get_registry_with_tools r tools
        = tools.foldl (GlobalFunctionRegistry.execCopyStep r)
            ((r.get_functions.filter (fun fd => tools.contains fd.name)).foldl
              (fun acc fd => acc.register_function fd) FunctionRegistry.new) := by
      rw [GlobalFunctionRegistry.get_registry_with_tools]
      simp [hclone, hne]
    have hinv : ∀ n,
        ((r.get_functions.filter (fun fd => tools.contains fd.name)).foldl
          (fun acc fd => acc.register_function fd)
          FunctionRegistry.new).get_executor n = none
        ∨ ((r.get_functions.filter (fun fd => tools.contains fd.name)).foldl
            (fun acc fd => acc.register_function fd)
            FunctionRegistry.new).get_executor n = r.get_executor n := by
      intro n
      left
      rw [FunctionRegistry.get_executor, foldl_register_function_executors]
      rfl
    obtain ⟨hfun, hmem, hnot⟩ := execCopy_fold_spec r tools
      ((r.get_functions.filter (fun fd => tools.contains fd.name)).foldl
        (fun acc fd => acc.register_function fd) FunctionRegistry.new) hinv
    have hrel : ∀ n,
        ((r.get_functions.filter (fun fd => tools.contains fd.name)).any
          (fun f => decide (f.name = n)))
          = (tools.contains n && r.contains_function n) := by
      intro n
      apply Bool.coe_iff_coe.mp
      constructor
      · intro h
        obtain ⟨f, hf, hfn⟩ := List.any_eq_true.mp h
        obtain ⟨hfmem, hftools⟩ := List.mem_filter.mp hf
        obtain ⟨p, hp, hpf⟩ := List.mem_map.mp hfmem
        have hname : f.name = n := of_decide_eq_true hfn
        have hkey : p.2.name = p.1 := hwf.2.1 p hp
        rw [Bool.and_eq_true]
        constructor
        · exact hname ▸ hftools
        · rw [FunctionRegistry.contains_function]
          apply List.any_eq_true.mpr
          refine ⟨p, hp, decide_eq_true ?_⟩
          rw [← hkey, hpf, hname]
      · intro h
        rw [Bool.and_eq_true] at h
        obtain ⟨h1, h2⟩ := h
        rw [FunctionRegistry.contains_function] at h2
        obtain ⟨p, hp, hpn⟩ := List.any_eq_true.mp h2
        have hpn' : p.1 = n := of_decide_eq_true hpn
        have hkey : p.2.name = p.1 := hwf.2.1 p hp
        apply List.any_eq_true.mpr
        refine ⟨p.2, List.mem_filter.mpr ⟨List.mem_map.mpr ⟨p, hp, rfl⟩, ?_⟩, ?_⟩
        · rw [hkey, hpn']
          exact h1
        · exact decide_eq_true (by rw [hkey, hpn'])
    rw [hgr]
    constructor
    · intro n
      have hcf : (tools.foldl (GlobalFunctionRegistry.execCopyStep r)
            ((r.get_functions.filter (fun fd => tools.contains fd.name)).foldl
              (fun acc fd => acc.register_function fd)
              FunctionRegistry.new)).contains_function n
          = ((r.get_functions.filter (fun fd => tools.contains fd.name)).foldl
              (fun acc fd => acc.register_function fd)
              FunctionRegistry.new).contains_function n := by
        rw [FunctionRegistry.contains_function, FunctionRegistry.contains_function, hfun]
      rw [hcf, foldl_register_function_contains]
      rw [show FunctionRegistry.new.contains_function n = false from rfl]
      rw [Bool.false_or, hrel n]
    · intro n hn
      exact hmem n hn

/-- A small well-formed registry with one function and its executor. -/
def wfReg : FunctionRegistry :=
  (FunctionRegistry.new.register_function
    { name := "x", description := "", parameters := [] }).register_executor ("x")
    (Executor.mk 5 ["x"])

/-- Claim C7 (witness). -/
theorem C7_witness :
    wfReg.WF
    ∧ ((["x", "zzz"] : List String) ≠ [])
    ∧ (GlobalFunctionRegistry.get_registry_with_tools wfReg
        ["x", "zzz"]).contains_function ("x")
      = ((["x", "zzz"] : List String).contains ("x") && wfReg.contains_function ("x")) :=
  ⟨by decide, by decide,
    ((C7_get_registry_with_tools wfReg ["x", "zzz"] (by decide)).2 (by decide)).1 ("x")⟩

/-- The error of a diagnosis step, if any. -/
def exceptErr? {α : Type} : Except DiagnosisError α → Option DiagnosisError
  | .error e => some e
  | .ok _ => none

/-- An environment whose `sys-uptime` capability times out and whose other
capabilities succeed. -/
def envTimeout : DiagEnv := fun name _ =>
  if name = "sys-uptime" then .timeout else .success .null

/-- A call that came back `Ok` was a success outcome. -/
theorem exec_ok_isSuccess (env : DiagEnv) (n a : String) (t : Nat) (v : JsonVal)
    (h : ProgressiveDiagnosis.execute_function_with_timeout env n a t = .ok v) :
    (env n a).isSuccess = true := by
  rw [ProgressiveDiagnosis.execute_function_with_timeout] at h
  cases henv : env n a <;> rw [henv] at h <;> simp_all [CallOutcome.isSuccess]

/-- Claim C1 (counterexample): with the standard configuration and an
environment whose `sys-uptime` call times out, the diagnosis returns `Err`
— no report — having executed only that one call: the failure aborts the
run instead of being recorded while later phases continue. -/
theorem C1_phase_failure_counterexample :
    exceptErr? (ProgressiveDiagnosis.execute_progressive_diagnosis envTimeout
        DiagnosticConfig.standard 0).1 = some (.timeout 15 15)
    ∧ (ProgressiveDiagnosis.execute_progressive_diagnosis envTimeout
        DiagnosticConfig.standard 0).2
      = [{ name := "sys-uptime", args := emptyArgs, ok := false }] := by decide

/-- A call that came back `Err` was not a success outcome. -/
theorem exec_error_notSuccess (env : DiagEnv) (n a : String) (t : Nat)
    (e : DiagnosisError)
    (h : ProgressiveDiagnosis.execute_function_with_timeout env n a t = .error e) :
    (env n a).isSuccess = false := by
  rw [ProgressiveDiagnosis.execute_function_with_timeout] at h
  cases henv : env n a <;> rw [henv] at h <;> simp_all [CallOutcome.isSuccess]

/-- A call trace that stops at its only failing call: every earlier call
succeeded and no call was issued afterwards. -/
def FailTrace (tr : List CallEvent) : Prop :=
  ∃ pre lastEv, tr = pre ++ [lastEv] ∧ lastEv.ok = false
    ∧ ∀ ev ∈ pre, ev.ok = true

/-- An environment where every capability call succeeds with `null`. -/
def envAllOk : DiagEnv := fun _ _ => .success .null

/-- Lemma: `update_system_info` never touches the execution summary. -/
theorem update_system_info_summary (r : DiagnosticReport) (u m : JsonVal) :
    (ProgressiveDiagnosis.update_system_info r u m).execution_summary
      = r.execution_summary := by
  rw [ProgressiveDiagnosis.update_system_info]
  repeat' split
  all_goals rfl

/-- Lemma: `update_process_metrics` never touches the execution summary. -/
theorem update_process_metrics_summary (r : DiagnosticReport) (a b c : JsonVal) :
    (ProgressiveDiagnosis.update_process_metrics r a b c).execution_summary
      = r.execution_summary := rfl

/-- Lemma: `update_io_metrics` never touches the execution summary. -/
theorem update_io_metrics_summary (r : DiagnosticReport) (a : JsonVal) :
    (ProgressiveDiagnosis.update_io_metrics r a).execution_summary
      = r.execution_summary := rfl

/-- Lemma: `update_network_metrics` never touches the execution summary. -/
theorem update_network_metrics_summary (r : DiagnosticReport) (a : JsonVal) :
    (ProgressiveDiagnosis.update_network_metrics r a).execution_summary
      = r.execution_summary := by
  rw [ProgressiveDiagnosis.update_network_metrics]

/-- Lemma: `analyze_and_recommend` only appends issues and recommendations. -/
theorem analyze_and_recommend_summary (r : DiagnosticReport) :
    (ProgressiveDiagnosis.analyze_and_recommend r).execution_summary
      = r.execution_summary := by
  rw [ProgressiveDiagnosis.analyze_and_recommend]
  repeat' split
  all_goals rfl

/-- Lemma: `update_execution_summary` keeps the executed-call log and success
count. -/
theorem update_execution_summary_keeps (r : DiagnosticReport) (d : Rat) :
    (ProgressiveDiagnosis.update_execution_summary r d).execution_summary.executed_functions
        = r.execution_summary.executed_functions
    ∧ (ProgressiveDiagnosis.update_execution_summary r
        d).execution_summary.successful_functions
        = r.execution_summary.successful_functions :=
  ⟨rfl, rfl⟩

/-- Execution-summary effect of a completed basic phase: two names are
recorded, the success counter advances by two, and both of the two issued
calls succeeded. -/
theorem basic_phase_ok (env : DiagEnv) (config : DiagnosticConfig)
    (r r' : DiagnosticReport) (tr : List CallEvent)
    (h : ProgressiveDiagnosis.execute_basic_diagnosis env config r = (.ok r', tr)) :
    r'.execution_summary.executed_functions
        = r.execution_summary.executed_functions ++ ["sys-uptime", "sys-meminfo"]
    ∧ r'.execution_summary.successful_functions
        = r.execution_summary.successful_functions + 2
    ∧ tr.length = 2
    ∧ (∀ ev ∈ tr, ev.ok = true) := by
  rw [ProgressiveDiagnosis.execute_basic_diagnosis] at h
  cases h1 : ProgressiveDiagnosis.execute_function_with_timeout env ("sys-uptime")
      emptyArgs config.timeout_seconds with
  | error e => rw [h1] at h; simp at h
  | ok uptime =>
    rw [h1] at h
    cases h2 : ProgressiveDiagnosis.execute_function_with_timeout env ("sys-meminfo")
        emptyArgs config.timeout_seconds with
    | error e => rw [h2] at h; simp at h
    | ok meminfo =>
      rw [h2] at h
      simp only [Prod.mk.injEq, Except.ok.injEq] at h
      obtain ⟨hr, htr⟩ := h
      subst hr
      subst htr
      refine ⟨?_, ?_, rfl, ?_⟩
      · show (ProgressiveDiagnosis.update_system_info r uptime
            meminfo).execution_summary.executed_functions ++ _ = _
        rw [update_system_info_summary]
      · show (ProgressiveDiagnosis.update_system_info r uptime
            meminfo).execution_summary.successful_functions + 2 = _
        rw [update_system_info_summary]
      · intro ev hev
        have e1 : (callEvent env ("sys-uptime") emptyArgs).ok = true := by
          simp [callEvent, exec_ok_isSuccess env ("sys-uptime") emptyArgs
            config.timeout_seconds uptime h1]
        have e2 : (callEvent env ("sys-meminfo") emptyArgs).ok = true := by
          simp [callEvent, exec_ok_isSuccess env ("sys-meminfo") emptyArgs
            config.timeout_seconds meminfo h2]
        simp only [List.mem_cons, List.not_mem_nil, or_false] at hev
        rcases hev with hev | hev
        · subst hev; exact e1
        · subst hev; exact e2

/-- Execution-summary effect of a completed process-analysis phase: it
issues three calls (`sys-proc-top` twice, `sys-proc-stats` once), all of
which succeeded, yet records only the two distinct names and advances the
success counter by two. -/
theorem process_phase_ok (env : DiagEnv) (config : DiagnosticConfig)
    (r r' : DiagnosticReport) (tr : List CallEvent)
    (h : ProgressiveDiagnosis.execute_process_analysis env config r = (.ok r', tr)) :
    r'.execution_summary.executed_functions
        = r.execution_summary.executed_functions ++ ["sys-proc-top", "sys-proc-stats"]
    ∧ r'.execution_summary.successful_functions
        = r.execution_summary.successful_functions + 2
    ∧ tr.length = 3
    ∧ (∀ ev ∈ tr, ev.ok = true) := by
  rw [ProgressiveDiagnosis.execute_process_analysis] at h
  cases h1 : ProgressiveDiagnosis.execute_function_with_timeout env ("sys-proc-top")
      cpuTopArgs config.timeout_seconds with
  | error e => rw [h1] at h; simp at h
  | ok cpu_top =>
    rw [h1] at h
    cases h2 : ProgressiveDiagnosis.execute_function_with_timeout env ("sys-proc-top")
        memTopArgs config.timeout_seconds with
    | error e => rw [h2] at h; simp at h
    | ok mem_top =>
      rw [h2] at h
      cases h3 : ProgressiveDiagnosis.execute_function_with_timeout env ("sys-proc-stats")
          emptyArgs config.timeout_seconds with
      | error e => rw [h3] at h; simp at h
      | ok proc_stats =>
        rw [h3] at h
        simp only [Prod.mk.injEq, Except.ok.injEq] at h
        obtain ⟨hr, htr⟩ := h
        subst hr
        subst htr
        refine ⟨?_, ?_, rfl, ?_⟩
        · show (ProgressiveDiagnosis.update_process_metrics r cpu_top mem_top
              proc_stats).execution_summary.executed_functions ++ _ = _
          rw [update_process_metrics_summary]
        · show (ProgressiveDiagnosis.update_process_metrics r cpu_top mem_top
              proc_stats).execution_summary.successful_functions + 2 = _
          rw [update_process_metrics_summary]
        · intro ev hev
          have e1 : (callEvent env ("sys-proc-top") cpuTopArgs).ok = true := by
            simp [callEvent, exec_ok_isSuccess env ("sys-proc-top") cpuTopArgs
              config.timeout_seconds cpu_top h1]
          have e2 : (callEvent env ("sys-proc-top") memTopArgs).ok = true := by
            simp [callEvent, exec_ok_isSuccess env ("sys-proc-top") memTopArgs
              config.timeout_seconds mem_top h2]
          have e3 : (callEvent env ("sys-proc-stats") emptyArgs).ok = true := by
            simp [callEvent, exec_ok_isSuccess env ("sys-proc-stats") emptyArgs
              config.timeout_seconds proc_stats h3]
          simp only [List.mem_cons, List.not_mem_nil, or_false] at hev
          rcases hev with hev | hev | hev
          · subst hev; exact e1
          · subst hev; exact e2
          · subst hev; exact e3

/-- Execution-summary effect of a completed I/O phase: one successful call,
one recorded name. -/
theorem io_phase_ok (env : DiagEnv) (sampling : SamplingConfig)
    (r r' : DiagnosticReport) (tr : List CallEvent)
    (h : ProgressiveDiagnosis.execute_io_analysis env sampling r = (.ok r', tr)) :
    r'.execution_summary.executed_functions
        = r.execution_summary.executed_functions ++ ["sys-iostat"]
    ∧ r'.execution_summary.successful_functions
        = r.execution_summary.successful_functions + 1
    ∧ tr.length = 1
    ∧ (∀ ev ∈ tr, ev.ok = true) := by
  rw [ProgressiveDiagnosis.execute_io_analysis] at h
  cases h1 : ProgressiveDiagnosis.execute_function_with_timeout env ("sys-iostat")
      (iostatArgs sampling.count sampling.interval) (sampling.timeout * 2) with
  | error e => rw [h1] at h; simp at h
  | ok iostat =>
    rw [h1] at h
    simp only [Prod.mk.injEq, Except.ok.injEq] at h
    obtain ⟨hr, htr⟩ := h
    subst hr
    subst htr
    refine ⟨?_, ?_, rfl, ?_⟩
    · show (ProgressiveDiagnosis.update_io_metrics r
          iostat).execution_summary.executed_functions ++ _ = _
      rw [update_io_metrics_summary]
    · show (ProgressiveDiagnosis.update_io_metrics r
          iostat).execution_summary.successful_functions + 1 = _
      rw [update_io_metrics_summary]
    · intro ev hev
      have e1 : (callEvent env ("sys-iostat")
          (iostatArgs sampling.count sampling.interval)).ok = true := by
        simp [callEvent, exec_ok_isSuccess env ("sys-iostat")
          (iostatArgs sampling.count sampling.interval) (sampling.timeout * 2) iostat h1]
      simp only [List.mem_singleton] at hev
      subst hev
      exact e1

/-- Execution-summary effect of a completed network phase: one successful
call, one recorded name. -/
theorem network_phase_ok (env : DiagEnv) (config : DiagnosticConfig)
    (r r' : DiagnosticReport) (tr : List CallEvent)
    (h : ProgressiveDiagnosis.execute_network_analysis env config r = (.ok r', tr)) :
    r'.execution_summary.executed_functions
        = r.execution_summary.executed_functions ++ ["sys-netstat"]
    ∧ r'.execution_summary.successful_functions
        = r.execution_summary.successful_functions + 1
    ∧ tr.length = 1
    ∧ (∀ ev ∈ tr, ev.ok = true) := by
  rw [ProgressiveDiagnosis.execute_network_analysis] at h
  cases h1 : ProgressiveDiagnosis.execute_function_with_timeout env ("sys-netstat")
      netstatArgs config.timeout_seconds with
  | error e => rw [h1] at h; simp at h
  | ok netstat =>
    rw [h1] at h
    simp only [Prod.mk.injEq, Except.ok.injEq] at h
    obtain ⟨hr, htr⟩ := h
    subst hr
    subst htr
    refine ⟨?_, ?_, rfl, ?_⟩
    · show (ProgressiveDiagnosis.update_network_metrics r
          netstat).execution_summary.executed_functions ++ _ = _
      rw [update_network_metrics_summary]
    · show (ProgressiveDiagnosis.update_network_metrics r
          netstat).execution_summary.successful_functions + 1 = _
      rw [update_network_metrics_summary]
    · intro ev hev
      have e1 : (callEvent env ("sys-netstat") netstatArgs).ok = true := by
        simp [callEvent, exec_ok_isSuccess env ("sys-netstat") netstatArgs
          config.timeout_seconds netstat h1]
      simp only [List.mem_singleton] at hev
      subst hev
      exact e1

/-- Summary effect of one toggled pipeline step: if the phase ran it
contributes its names, count and calls; if its toggle is off it
contributes nothing. -/
theorem step_summary (toggle : Bool)
    (phase : Except DiagnosisError DiagnosticReport × List CallEvent)
    (r r' : DiagnosticReport) (tr : List CallEvent)
    (names : List String) (k calls : Nat)
    (hphase : ∀ r'' tr'', phase = (.ok r'', tr'') →
      r''.execution_summary.executed_functions
          = r.execution_summary.executed_functions ++ names
      ∧ r''.execution_summary.successful_functions
          = r.execution_summary.successful_functions + k
      ∧ tr''.length = calls
      ∧ ∀ ev ∈ tr'', ev.ok = true)
    (h : (if toggle then phase else (.ok r, [])) = (.ok r', tr)) :
    r'.execution_summary.executed_functions
        = r.execution_summary.executed_functions ++ (if toggle then names else [])
    ∧ r'.execution_summary.successful_functions
        = r.execution_summary.successful_functions + (if toggle then k else 0)
    ∧ tr.length = (if toggle then calls else 0)
    ∧ (∀ ev ∈ tr, ev.ok = true) := by
  cases toggle with
  | false =>
    simp only [Bool.false_eq_true, if_false] at h ⊢
    simp only [Prod.mk.injEq, Except.ok.injEq] at h
    obtain ⟨hr, htr⟩ := h
    subst hr
    subst htr
    refine ⟨by simp, by simp, rfl, ?_⟩
    intro ev hev
    simp at hev
  | true =>
    simp only [if_true] at h ⊢
    exact hphase r' tr h

/-- Prefixing an all-successful trace preserves the failing-tail shape. -/
theorem failTrace_append (pre0 tr : List CallEvent)
    (hpre : ∀ ev ∈ pre0, ev.ok = true) (h : FailTrace tr) :
    FailTrace (pre0 ++ tr) := by
  obtain ⟨pre, lastEv, heq, hfail, hok⟩ := h
  refine ⟨pre0 ++ pre, lastEv, ?_, hfail, ?_⟩
  · rw [heq, List.append_assoc]
  · intro ev hev
    rcases List.mem_append.mp hev with hv | hv
    · exact hpre ev hv
    · exact hok ev hv

/-- A failing basic phase stops at its failing call. -/
theorem basic_phase_err (env : DiagEnv) (config : DiagnosticConfig)
    (r : DiagnosticReport) (e : DiagnosisError) (tr : List CallEvent)
    (h : ProgressiveDiagnosis.execute_basic_diagnosis env config r = (.error e, tr)) :
    FailTrace tr := by
  rw [ProgressiveDiagnosis.execute_basic_diagnosis] at h
  cases h1 : ProgressiveDiagnosis.execute_function_with_timeout env ("sys-uptime")
      emptyArgs config.timeout_seconds with
  | error e1 =>
    rw [h1] at h
    simp only [Prod.mk.injEq, Except.error.injEq] at h
    obtain ⟨he, htr⟩ := h
    subst htr
    refine ⟨[], callEvent env ("sys-uptime") emptyArgs, rfl, ?_, ?_⟩
    · simp [callEvent, exec_error_notSuccess env ("sys-uptime") emptyArgs
        config.timeout_seconds e1 h1]
    · intro ev hev
      simp at hev
  | ok uptime =>
    rw [h1] at h
    cases h2 : ProgressiveDiagnosis.execute_function_with_timeout env ("sys-meminfo")
        emptyArgs config.timeout_seconds with
    | error e2 =>
      rw [h2] at h
      simp only [Prod.mk.injEq, Except.error.injEq] at h
      obtain ⟨he, htr⟩ := h
      subst htr
      refine ⟨[callEvent env ("sys-uptime") emptyArgs],
        callEvent env ("sys-meminfo") emptyArgs, rfl, ?_, ?_⟩
      · simp [callEvent, exec_error_notSuccess env ("sys-meminfo") emptyArgs
          config.timeout_seconds e2 h2]
      · intro ev hev
        simp only [List.mem_singleton] at hev
        subst hev
        simp [callEvent, exec_ok_isSuccess env ("sys-uptime") emptyArgs
          config.timeout_seconds uptime h1]
    | ok meminfo =>
      rw [h2] at h
      simp at h

/-- A failing process-analysis phase stops at its failing call. -/
theorem process_phase_err (env : DiagEnv) (config : DiagnosticConfig)
    (r : DiagnosticReport) (e : DiagnosisError) (tr : List CallEvent)
    (h : ProgressiveDiagnosis.execute_process_analysis env config r
        = (.error e, tr)) :
    FailTrace tr := by
  rw [ProgressiveDiagnosis.execute_process_analysis] at h
  cases h1 : ProgressiveDiagnosis.execute_function_with_timeout env ("sys-proc-top")
      cpuTopArgs config.timeout_seconds with
  | error e1 =>
    rw [h1] at h
    simp only [Prod.mk.injEq, Except.error.injEq] at h
    obtain ⟨he, htr⟩ := h
    subst htr
    refine ⟨[], callEvent env ("sys-proc-top") cpuTopArgs, rfl, ?_, ?_⟩
    · simp [callEvent, exec_error_notSuccess env ("sys-proc-top") cpuTopArgs
        config.timeout_seconds e1 h1]
    · intro ev hev
      simp at hev
  | ok cpu_top =>
    rw [h1] at h
    cases h2 : ProgressiveDiagnosis.execute_function_with_timeout env ("sys-proc-top")
        memTopArgs config.timeout_seconds with
    | error e2 =>
      rw [h2] at h
      simp only [Prod.mk.injEq, Except.error.injEq] at h
      obtain ⟨he, htr⟩ := h
      subst htr
      refine ⟨[callEvent env ("sys-proc-top") cpuTopArgs],
        callEvent env ("sys-proc-top") memTopArgs, rfl, ?_, ?_⟩
      · simp [callEvent, exec_error_notSuccess env ("sys-proc-top") memTopArgs
          config.timeout_seconds e2 h2]
      · intro ev hev
        simp only [List.mem_singleton] at hev
        subst hev
        simp [callEvent, exec_ok_isSuccess env ("sys-proc-top") cpuTopArgs
          config.timeout_seconds cpu_top h1]
    | ok mem_top =>
      rw [h2] at h
      cases h3 : ProgressiveDiagnosis.execute_function_with_timeout env
          ("sys-proc-stats") emptyArgs config.timeout_seconds with
      | error e3 =>
        rw [h3] at h
        simp only [Prod.mk.injEq, Except.error.injEq] at h
        obtain ⟨he, htr⟩ := h
        subst htr
        refine ⟨[callEvent env ("sys-proc-top") cpuTopArgs,
            callEvent env ("sys-proc-top") memTopArgs],
          callEvent env ("sys-proc-stats") emptyArgs, rfl, ?_, ?_⟩
        · simp [callEvent, exec_error_notSuccess env ("sys-proc-stats") emptyArgs
            config.timeout_seconds e3 h3]
        · intro ev hev
          simp only [List.mem_cons, List.not_mem_nil, or_false] at hev
          rcases hev with hev | hev
          · subst hev
            simp [callEvent, exec_ok_isSuccess env ("sys-proc-top") cpuTopArgs
              config.timeout_seconds cpu_top h1]
          · subst hev
            simp [callEvent, exec_ok_isSuccess env ("sys-proc-top") memTopArgs
              config.timeout_seconds mem_top h2]
      | ok proc_stats =>
        rw [h3] at h
        simp at h

/-- A failing I/O phase stops at its failing call. -/
theorem io_phase_err (env : DiagEnv) (sampling : SamplingConfig)
    (r : DiagnosticReport) (e : DiagnosisError) (tr : List CallEvent)
    (h : ProgressiveDiagnosis.execute_io_analysis env sampling r = (.error e, tr)) :
    FailTrace tr := by
  rw [ProgressiveDiagnosis.execute_io_analysis] at h
  cases h1 : ProgressiveDiagnosis.execute_function_with_timeout env ("sys-iostat")
      (iostatArgs sampling.count sampling.interval) (sampling.timeout * 2) with
  | error e1 =>
    rw [h1] at h
    simp only [Prod.mk.injEq, Except.error.injEq] at h
    obtain ⟨he, htr⟩ := h
    subst htr
    refine ⟨[], callEvent env ("sys-iostat")
      (iostatArgs sampling.count sampling.interval), rfl, ?_, ?_⟩
    · simp [callEvent, exec_error_notSuccess env ("sys-iostat")
        (iostatArgs sampling.count sampling.interval) (sampling.timeout * 2) e1 h1]
    · intro ev hev
      simp at hev
  | ok iostat =>
    rw [h1] at h
    simp at h

/-- A failing network phase stops at its failing call. -/
theorem network_phase_err (env : DiagEnv) (config : DiagnosticConfig)
    (r : DiagnosticReport) (e : DiagnosisError) (tr : List CallEvent)
    (h : ProgressiveDiagnosis.execute_network_analysis env config r
        = (.error e, tr)) :
    FailTrace tr := by
  rw [ProgressiveDiagnosis.execute_network_analysis] at h
  cases h1 : ProgressiveDiagnosis.execute_function_with_timeout env ("sys-netstat")
      netstatArgs config.timeout_seconds with
  | error e1 =>
    rw [h1] at h
    simp only [Prod.mk.injEq, Except.error.injEq] at h
    obtain ⟨he, htr⟩ := h
    subst htr
    refine ⟨[], callEvent env ("sys-netstat") netstatArgs, rfl, ?_, ?_⟩
    · simp [callEvent, exec_error_notSuccess env ("sys-netstat") netstatArgs
        config.timeout_seconds e1 h1]
    · intro ev hev
      simp at hev
  | ok netstat =>
    rw [h1] at h
    simp at h

/-- A toggled step that fails is a failing phase run. -/
theorem step_err (toggle : Bool)
    (phase : Except DiagnosisError DiagnosticReport × List CallEvent)
    (r : DiagnosticReport) (e : DiagnosisError) (tr : List CallEvent)
    (hphase : ∀ e' tr', phase = (.error e', tr') → FailTrace tr')
    (h : (if toggle then phase else (.ok r, [])) = (.error e, tr)) :
    FailTrace tr := by
  cases toggle with
  | false =>
    simp only [Bool.false_eq_true, if_false] at h
    simp at h
  | true =>
    simp only [if_true] at h
    exact hphase e tr h

/-- Claim C1 (amended): a capability-call failure inside an enabled phase
is propagated, not recorded.  Whenever any call issued by any enabled
phase fails (error result, routing error, or timeout),
`execute_progressive_diagnosis` returns `Err`, and the trace of issued
calls stops at that failing call — every earlier call succeeded and no
later call of that phase or of any remaining enabled phase is issued, so
no report or execution summary exists in which the failure could be
recorded.  Conversely a report (`Ok`) is returned only when every call
issued by the enabled phases succeeded. -/
theorem C1_phase_failure_propagates (env : DiagEnv) (config : DiagnosticConfig)
    (elapsed : Rat) :
    (∀ rep tr,
        ProgressiveDiagnosis.execute_progressive_diagnosis env config elapsed
          = (.ok rep, tr) → ∀ ev ∈ tr, ev.ok = true)
    ∧ (∀ e tr,
        ProgressiveDiagnosis.execute_progressive_diagnosis env config elapsed
          = (.error e, tr) → FailTrace tr) := by
  constructor
  · intro rep tr h
    rw [ProgressiveDiagnosis.execute_progressive_diagnosis] at h
    simp only [] at h
    rcases hs1 : (if config.check_basic_info then
        ProgressiveDiagnosis.execute_basic_diagnosis env config
          (DiagnosticReport.new (.custom config))
      else (.ok (DiagnosticReport.new (.custom config)), []))
      with ⟨res1, tr1⟩
    rw [hs1] at h
    cases res1 with
    | error e1 => simp at h
    | ok r1 =>
      simp only [] at h
      rcases hs2 : (if config.check_processes then
          ProgressiveDiagnosis.execute_process_analysis env config r1
        else (.ok r1, [])) with ⟨res2, tr2⟩
      rw [hs2] at h
      cases res2 with
      | error e2 => simp at h
      | ok r2 =>
        simp only [] at h
        rcases hs3 : (if config.check_io_performance then
            ProgressiveDiagnosis.execute_io_analysis env
              (ProgressiveDiagnosis.samplingOf config) r2
          else (.ok r2, [])) with ⟨res3, tr3⟩
        rw [hs3] at h
        cases res3 with
        | error e3 => simp at h
        | ok r3 =>
          simp only [] at h
          rcases hs4 : (if config.check_network then
              ProgressiveDiagnosis.execute_network_analysis env config r3
            else (.ok r3, [])) with ⟨res4, tr4⟩
          rw [hs4] at h
          cases res4 with
          | error e4 => simp at h
          | ok r4 =>
            simp only [Prod.mk.injEq, Except.ok.injEq] at h
            obtain ⟨hrep, htr⟩ := h
            have f1 := step_summary config.check_basic_info _
              (DiagnosticReport.new (.custom config)) r1 tr1
              ["sys-uptime", "sys-meminfo"] 2 2
              (fun r'' tr'' hp => basic_phase_ok env config _ r'' tr'' hp) hs1
            have f2 := step_summary config.check_processes _ r1 r2 tr2
              ["sys-proc-top", "sys-proc-stats"] 2 3
              (fun r'' tr'' hp => process_phase_ok env config _ r'' tr'' hp) hs2
            have f3 := step_summary config.check_io_performance _ r2 r3 tr3
              ["sys-iostat"] 1 1
              (fun r'' tr'' hp => io_phase_ok env
                (ProgressiveDiagnosis.samplingOf config) _ r'' tr'' hp) hs3
            have f4 := step_summary config.check_network _ r3 r4 tr4
              ["sys-netstat"] 1 1
              (fun r'' tr'' hp => network_phase_ok env config _ r'' tr'' hp) hs4
            intro ev hev
            rw [← htr] at hev
            simp only [List.mem_append] at hev
            rcases hev with ((hev | hev) | hev) | hev
            · exact f1.2.2.2 ev hev
            · exact f2.2.2.2 ev hev
            · exact f3.2.2.2 ev hev
            · exact f4.2.2.2 ev hev
  · intro e tr h
    rw [ProgressiveDiagnosis.execute_progressive_diagnosis] at h
    simp only [] at h
    rcases hs1 : (if config.check_basic_info then
        ProgressiveDiagnosis.execute_basic_diagnosis env config
          (DiagnosticReport.new (.custom config))
      else (.ok (DiagnosticReport.new (.custom config)), []))
      with ⟨res1, tr1⟩
    rw [hs1] at h
    cases res1 with
    | error e1 =>
      simp only [Prod.mk.injEq, Except.error.injEq] at h
      obtain ⟨he, htr⟩ := h
      subst htr
      exact step_err config.check_basic_info _ _ e1 tr1
        (fun e' tr' hp => basic_phase_err env config _ e' tr' hp) hs1
    | ok r1 =>
      simp only [] at h
      have hall1 := (step_summary config.check_basic_info _
        (DiagnosticReport.new (.custom config)) r1 tr1
        ["sys-uptime", "sys-meminfo"] 2 2
        (fun r'' tr'' hp => basic_phase_ok env config _ r'' tr'' hp) hs1).2.2.2
      rcases hs2 : (if config.check_processes then
          ProgressiveDiagnosis.execute_process_analysis env config r1
        else (.ok r1, [])) with ⟨res2, tr2⟩
      rw [hs2] at h
      cases res2 with
      | error e2 =>
        simp only [Prod.mk.injEq, Except.error.injEq] at h
        obtain ⟨he, htr⟩ := h
        subst htr
        exact failTrace_append tr1 tr2 hall1
          (step_err config.check_processes _ _ e2 tr2
            (fun e' tr' hp => process_phase_err env config _ e' tr' hp) hs2)
      | ok r2 =>
        simp only [] at h
        have hall2 := (step_summary config.check_processes _ r1 r2 tr2
          ["sys-proc-top", "sys-proc-stats"] 2 3
          (fun r'' tr'' hp => process_phase_ok env config _ r'' tr'' hp) hs2).2.2.2
        have hall12 : ∀ ev ∈ tr1 ++ tr2, ev.ok = true := by
          intro ev hev
          rcases List.mem_append.mp hev with hv | hv
          · exact hall1 ev hv
          · exact hall2 ev hv
        rcases hs3 : (if config.check_io_performance then
            ProgressiveDiagnosis.execute_io_analysis env
              (ProgressiveDiagnosis.samplingOf config) r2
          else (.ok r2, [])) with ⟨res3, tr3⟩
        rw [hs3] at h
        cases res3 with
        | error e3 =>
          simp only [Prod.mk.injEq, Except.error.injEq] at h
          obtain ⟨he, htr⟩ := h
          subst htr
          exact failTrace_append (tr1 ++ tr2) tr3 hall12
            (step_err config.check_io_performance _ _ e3 tr3
              (fun e' tr' hp => io_phase_err env
                (ProgressiveDiagnosis.samplingOf config) _ e' tr' hp) hs3)
        | ok r3 =>
          simp only [] at h
          have hall3 := (step_summary config.check_io_performance _ r2 r3 tr3
            ["sys-iostat"] 1 1
            (fun r'' tr'' hp => io_phase_ok env
              (ProgressiveDiagnosis.samplingOf config) _ r'' tr'' hp) hs3).2.2.2
          have hall123 : ∀ ev ∈ tr1 ++ tr2 ++ tr3, ev.ok = true := by
            intro ev hev
            rcases List.mem_append.mp hev with hv | hv
            · exact hall12 ev hv
            · exact hall3 ev hv
          rcases hs4 : (if config.check_network then
              ProgressiveDiagnosis.execute_network_analysis env config r3
            else (.ok r3, [])) with ⟨res4, tr4⟩
          rw [hs4] at h
          cases res4 with
          | error e4 =>
            simp only [Prod.mk.injEq, Except.error.injEq] at h
            obtain ⟨he, htr⟩ := h
            subst htr
            exact failTrace_append (tr1 ++ tr2 ++ tr3) tr4 hall123
              (step_err config.check_network _ _ e4 tr4
                (fun e' tr' hp => network_phase_err env config _ e' tr' hp) hs4)
          | ok r4 =>
            simp at h

/-- Claim C1 (witness): the timing-out environment instantiates the
failure branch at the standard configuration. -/
theorem C1_witness :
    ProgressiveDiagnosis.execute_progressive_diagnosis envTimeout
        DiagnosticConfig.standard 0
      = (.error (.timeout 15 15),
         [{ name := "sys-uptime", args := emptyArgs, ok := false }])
    ∧ FailTrace [{ name := "sys-uptime", args := emptyArgs, ok := false }] :=
  ⟨by rfl,
    (C1_phase_failure_propagates envTimeout DiagnosticConfig.standard 0).2
      (.timeout 15 15)
      [{ name := "sys-uptime", args := emptyArgs, ok := false }] (by rfl)⟩

/-- Claim C5 (counterexample): with every call succeeding and the standard
configuration, the pipeline issues five successful capability calls —
`sys-proc-top` twice — yet the report lists only four names (each distinct
name once) and counts four successes, so `executed_functions` does not
have one entry per successfully executed call. -/
theorem C5_execution_log_counterexample :
    ((ProgressiveDiagnosis.execute_progressive_diagnosis envAllOk
        DiagnosticConfig.standard 0).1.toOption.map
      (fun rep => (rep.execution_summary.executed_functions,
        rep.execution_summary.successful_functions)))
      = some (["sys-uptime", "sys-meminfo", "sys-proc-top", "sys-proc-stats"], 4)
    ∧ (ProgressiveDiagnosis.execute_progressive_diagnosis envAllOk
        DiagnosticConfig.standard 0).2.length = 5
    ∧ ((ProgressiveDiagnosis.execute_progressive_diagnosis envAllOk
        DiagnosticConfig.standard 0).2.filter (fun ev => ev.ok)).length = 5
    ∧ ((ProgressiveDiagnosis.execute_progressive_diagnosis envAllOk
        DiagnosticConfig.standard 0).2.filter
          (fun ev => ev.name = "sys-proc-top")).length = 2 := by decide

/-- Claim C5 (amended): in every run that returns a report, the execution
log holds a fixed pair of names per completed phase — `sys-proc-top`
appears once although the process phase executes it twice — and
`successful_functions` equals the length of that log, which is one less
than the number of successfully executed calls whenever the process phase
is enabled. -/
theorem C5_execution_summary (env : DiagEnv) (config : DiagnosticConfig)
    (elapsed : Rat) (rep : DiagnosticReport) (tr : List CallEvent)
    (h : ProgressiveDiagnosis.execute_progressive_diagnosis env config elapsed
        = (.ok rep, tr)) :
    rep.execution_summary.executed_functions
      = (if config.check_basic_info then ["sys-uptime", "sys-meminfo"] else [])
        ++ (if config.check_processes then ["sys-proc-top", "sys-proc-stats"] else [])
        ++ (if config.check_io_performance then ["sys-iostat"] else [])
        ++ (if config.check_network then ["sys-netstat"] else [])
    ∧ rep.execution_summary.successful_functions
        = rep.execution_summary.executed_functions.length
    ∧ (∀ ev ∈ tr, ev.ok = true)
    ∧ tr.length = rep.execution_summary.successful_functions
        + (if config.check_processes then 1 else 0) := by
  rw [ProgressiveDiagnosis.execute_progressive_diagnosis] at h
  simp only [] at h
  rcases hs1 : (if config.check_basic_info then
      ProgressiveDiagnosis.execute_basic_diagnosis env config
        (DiagnosticReport.new (.custom config))
    else (.ok (DiagnosticReport.new (.custom config)), []))
    with ⟨res1, tr1⟩
  rw [hs1] at h
  cases res1 with
  | error e => simp at h
  | ok r1 =>
    simp only [] at h
    rcases hs2 : (if config.check_processes then
        ProgressiveDiagnosis.execute_process_analysis env config r1
      else (.ok r1, [])) with ⟨res2, tr2⟩
    rw [hs2] at h
    cases res2 with
    | error e => simp at h
    | ok r2 =>
      simp only [] at h
      rcases hs3 : (if config.check_io_performance then
          ProgressiveDiagnosis.execute_io_analysis env
            (ProgressiveDiagnosis.samplingOf config) r2
        else (.ok r2, [])) with ⟨res3, tr3⟩
      rw [hs3] at h
      cases res3 with
      | error e => simp at h
      | ok r3 =>
        simp only [] at h
        rcases hs4 : (if config.check_network then
            ProgressiveDiagnosis.execute_network_analysis env config r3
          else (.ok r3, [])) with ⟨res4, tr4⟩
        rw [hs4] at h
        cases res4 with
        | error e => simp at h
        | ok r4 =>
          simp only [Prod.mk.injEq, Except.ok.injEq] at h
          obtain ⟨hrep, htr⟩ := h
          have f1 := step_summary config.check_basic_info _
            (DiagnosticReport.new (.custom config)) r1 tr1
            ["sys-uptime", "sys-meminfo"] 2 2
            (fun r'' tr'' hp => basic_phase_ok env config _ r'' tr'' hp) hs1
          have f2 := step_summary config.check_processes _ r1 r2 tr2
            ["sys-proc-top", "sys-proc-stats"] 2 3
            (fun r'' tr'' hp => process_phase_ok env config _ r'' tr'' hp) hs2
          have f3 := step_summary config.check_io_performance _ r2 r3 tr3
            ["sys-iostat"] 1 1
            (fun r'' tr'' hp => io_phase_ok env
              (ProgressiveDiagnosis.samplingOf config) _ r'' tr'' hp) hs3
          have f4 := step_summary config.check_network _ r3 r4 tr4
            ["sys-netstat"] 1 1
            (fun r'' tr'' hp => network_phase_ok env config _ r'' tr'' hp) hs4
          have hrepsum : rep.execution_summary.executed_functions
                = r4.execution_summary.executed_functions
              ∧ rep.execution_summary.successful_functions
                = r4.execution_summary.successful_functions := by
            rw [← hrep]
            rw [analyze_and_recommend_summary]
            exact update_execution_summary_keeps r4 elapsed
          have hex0 : (DiagnosticReport.new
              (.custom config)).execution_summary.executed_functions = [] := rfl
          have hsc0 : (DiagnosticReport.new
              (.custom config)).execution_summary.successful_functions = 0 := rfl
          have hex4 : rep.execution_summary.executed_functions
              = (if config.check_basic_info then ["sys-uptime", "sys-meminfo"] else [])
                ++ (if config.check_processes then
                      ["sys-proc-top", "sys-proc-stats"] else [])
                ++ (if config.check_io_performance then ["sys-iostat"] else [])
                ++ (if config.check_network then ["sys-netstat"] else []) := by
            rw [hrepsum.1, f4.1, f3.1, f2.1, f1.1, hex0]
            simp [List.append_assoc]
          refine ⟨hex4, ?_, ?_, ?_⟩
          · rw [hrepsum.2, f4.2.1, f3.2.1, f2.2.1, f1.2.1, hsc0, hex4]
            cases config.check_basic_info <;> cases config.check_processes <;>
              cases config.check_io_performance <;> cases config.check_network <;>
                simp
          · intro ev hev
            rw [← htr] at hev
            simp only [List.mem_append] at hev
            rcases hev with ((hev | hev) | hev) | hev
            · exact f1.2.2.2 ev hev
            · exact f2.2.2.2 ev hev
            · exact f3.2.2.2 ev hev
            · exact f4.2.2.2 ev hev
          · rw [← htr]
            simp only [List.length_append]
            rw [f1.2.2.1, f2.2.2.1, f3.2.2.1, f4.2.2.1,
              hrepsum.2, f4.2.1, f3.2.1, f2.2.1, f1.2.1, hsc0]
            cases config.check_basic_info <;> cases config.check_processes <;>
              cases config.check_io_performance <;> cases config.check_network <;>
                simp

/-- The successful standard run used to instantiate claim C5. -/
def C5run : Except DiagnosisError DiagnosticReport × List CallEvent :=
  ProgressiveDiagnosis.execute_progressive_diagnosis envAllOk
    DiagnosticConfig.standard 0

/-- The report of the successful standard run. -/
def C5rep : DiagnosticReport :=
  match C5run.1 with
  | .ok rep => rep
  | .error _ => DiagnosticReport.new .basic

/-- Claim C5 (witness). -/
theorem C5_witness :
    ProgressiveDiagnosis.execute_progressive_diagnosis envAllOk
        DiagnosticConfig.standard 0 = (.ok C5rep, C5run.2)
    ∧ C5rep.execution_summary.successful_functions
        = C5rep.execution_summary.executed_functions.length :=
  ⟨by rfl,
    (C5_execution_summary envAllOk DiagnosticConfig.standard 0 C5rep C5run.2
      (by rfl)).2.1⟩

end OrionAi
